import Mathlib

/-!
Verification of the `advent-of-code-2021-lang` interpreter (a small
section-structured scripting language implemented in Go) against its
natural-language specification.

The Go sources are shallowly embedded: each Lean definition mirrors one Go
function of the current generation of the sources (`src/unnamed/part_007`
for the lexer, `src/src/parser.go` for the parser, `src/src/value.go`,
`src/src/eval.go` third revision and `src/src/runtime.go` for the value
model, evaluator and native library).  Mutable Go state (the slice/map
heaps, the environment chain, the lexer cursor) is threaded explicitly;
Go loops are modelled with an explicit fuel parameter, `none`/fuel
exhaustion standing for a computation that has not finished; Go `panic`s
of the interpreter's own `Error` type are one outcome channel and
host-level (Go runtime) panics a distinct one.
-/

namespace AocLang

/-- Error kinds, from `error.go` (`ErrorTag`): lexical, parse and runtime. -/
inductive ErrTag
  | lexError
  | parseError
  | runtimeError
deriving DecidableEq, Repr

/-- The interpreter's error value, from `error.go` (`Error`).  The source
also stores a line number, used only for diagnostics printing; positions
are not modelled, so the line field is omitted here. -/
structure LangError where
  tag : ErrTag
  msg : String
deriving DecidableEq, Repr

/-- Token kinds, from the lexer (`part_007`, `TokenTag`).  The Go `Token`
stores a byte offset and length into the source buffer and `GetString`
materializes the text; here identifier, string and number tokens carry
their materialized text directly and positions are dropped (they feed only
line/column diagnostics). -/
inductive Tok
  | eof
  | identTok (s : String)
  | strTok (s : String)
  | numTok (s : String)
  | colon
  | lcurly
  | rcurly
  | lparen
  | rparen
  | lsquare
  | rsquare
  | equal
  | equalEqual
  | bangEqual
  | greater
  | greaterEqual
  | less
  | lessEqual
  | plus
  | star
  | comma
  | minus
  | slash
  | percent
  | ampAmp
  | pipePipe
  | kvar
  | kfor
  | kin
  | kif
  | kreturn
  | kcontinue
  | kmatch
  | kelse
  | kbreak
  | kfn
  | knil
deriving DecidableEq, Repr

/-! ## Lexer (src/unnamed/part_007)

The Go lexer walks a UTF-8 string by byte offset, decoding one rune at a
time with `utf8.DecodeRuneInString`.  Positions are modelled as rune
offsets into a `List Char`; the one behaviour that matters for the claims
is preserved exactly: decoding at or past the end of the buffer yields the
replacement rune `0xFFFD` with size 0, so `advance` makes no progress
there. -/

/-- The single-quote character that delimits string literals. -/
def quoteChar : Char := Char.ofNat 39

/-- Lexer state: source buffer and cursor, from `part_007` (`Lexer`).
`tokenStart` is kept implicit (passed where needed); `line` mirrors the
line counter maintained by `advance`. -/
structure LexSt where
  src : List Char
  pos : Nat
  line : Nat
deriving DecidableEq, Repr

/-- Mirror of `utf8.DecodeRuneInString` applied at an offset: the rune at
`pos` with size 1, or the replacement rune with size 0 at or past the end
of the buffer. -/
def decodeAt (src : List Char) (pos : Nat) : Char × Nat :=
  match src.get? pos with
  | some c => (c, 1)
  | none => (Char.ofNat 0xFFFD, 0)

/-- Mirror of `Lexer.peek`. -/
def lexPeek (lex : LexSt) : Char :=
  (decodeAt lex.src lex.pos).1

/-- Mirror of `Lexer.advance`: bump the line counter when the previous
rune was a newline, then move the cursor by the size of the rune under it
(zero at end of input, so `advance` is then a no-op on the cursor). -/
def lexAdvance (lex : LexSt) : LexSt :=
  let lex1 :=
    if 0 < lex.pos ∧ (decodeAt lex.src (lex.pos - 1)).1 = '\n' then
      { lex with line := lex.line + 1 }
    else lex
  { lex1 with pos := lex1.pos + (decodeAt lex1.src lex1.pos).2 }

/-- Mirror of `Lexer.consume`: checks the rune under the cursor and steps
over it, or reports a lex error. -/
def lexConsume (expected : Char) (lex : LexSt) : Except LangError LexSt :=
  let (r, size) := decodeAt lex.src lex.pos
  if r = expected then .ok { lex with pos := lex.pos + size }
  else .error ⟨.lexError, "expected a different character"⟩

/-- Inner loop of `skipWhitespace` for a `#` comment: advance until a
newline; if the cursor reaches the end of the buffer, `skipWhitespace`
returns outright (signalled by the `true` flag).  `none` is fuel
exhaustion. -/
def commentLoop : Nat → LexSt → Option (Bool × LexSt)
  | 0, _ => none
  | f + 1, lex =>
    if lexPeek lex = '\n' then some (false, lex)
    else
      let lex1 := lexAdvance lex
      if lex1.src.length ≤ lex1.pos then some (true, lex1)
      else commentLoop f lex1

/-- Mirror of `Lexer.skipWhitespace`: skip blanks, newlines, carriage
returns and `#` line comments.  `none` is fuel exhaustion. -/
def skipWs : Nat → LexSt → Option LexSt
  | 0, _ => none
  | f + 1, lex =>
    let c := lexPeek lex
    if c = ' ' ∨ c = '\n' ∨ c = '\r' then skipWs f (lexAdvance lex)
    else if c = '#' then
      match commentLoop f lex with
      | none => none
      | some (true, lex1) => some lex1
      | some (false, lex1) => skipWs f lex1
    else some lex

/-- Scanning loop of `Lexer.string`: advance until the cursor sits on a
closing quote.  `none` is fuel exhaustion; the Go loop has no other exit,
in particular it never stops at end of input. -/
def strScan : Nat → LexSt → Option LexSt
  | 0, _ => none
  | f + 1, lex =>
    if lexPeek lex = quoteChar then some lex
    else strScan f (lexAdvance lex)

/-- Character class used by `Lexer.identifier` for continuing an
identifier (`unicode.IsLetter`, `unicode.IsNumber` or an underscore);
restricted to ASCII here. -/
def isIdentChar (c : Char) : Bool :=
  c.isAlpha || c.isDigit || c = '_'

/-- Scanning loop of `Lexer.identifier`. -/
def identScan : Nat → LexSt → Option LexSt
  | 0, _ => none
  | f + 1, lex =>
    if isIdentChar (lexPeek lex) then identScan f (lexAdvance lex)
    else some lex

/-- Scanning loop of `Lexer.number`. -/
def numScan : Nat → LexSt → Option LexSt
  | 0, _ => none
  | f + 1, lex =>
    if (lexPeek lex).isDigit then numScan f (lexAdvance lex)
    else some lex

/-- Substring of the source between two rune offsets, the lexer's
`GetString` applied to a `stringToken`. -/
def lexSlice (src : List Char) (startPos endPos : Nat) : String :=
  String.mk ((src.drop startPos).take (endPos - startPos))

/-- Keyword table of `Lexer.identifier`. -/
def keywordTok (s : String) : Tok :=
  if s = "var" then .kvar
  else if s = "for" then .kfor
  else if s = "in" then .kin
  else if s = "if" then .kif
  else if s = "return" then .kreturn
  else if s = "continue" then .kcontinue
  else if s = "break" then .kbreak
  else if s = "match" then .kmatch
  else if s = "else" then .kelse
  else if s = "fn" then .kfn
  else if s = "nil" then .knil
  else .identTok s

/-- Mirror of `Lexer.NextToken`.  Outcomes: `none` when a loop inside the
lexer has not finished within the fuel bound, otherwise the token and the
advanced lexer state, or a lex error for malformed input.  Each internal
loop is given the whole fuel budget `f`. -/
def nextToken (f : Nat) (lex : LexSt) : Option (Except LangError (Tok × LexSt)) :=
  if lex.src.length ≤ lex.pos then some (.ok (.eof, lex))
  else
    match skipWs f lex with
    | none => none
    | some lex1 =>
      let r := lexPeek lex1
      let tokenStart := lex1.pos
      if r.isAlpha then
        match identScan f lex1 with
        | none => none
        | some lex2 =>
          some (.ok (keywordTok (lexSlice lex2.src tokenStart lex2.pos), lex2))
      else if r.isDigit then
        match numScan f lex1 with
        | none => none
        | some lex2 => some (.ok (.numTok (lexSlice lex2.src tokenStart lex2.pos), lex2))
      else
        let lex2 := lexAdvance lex1
        if r = quoteChar then
          match strScan f lex2 with
          | none => none
          | some lex3 =>
            let tokStr := lexSlice lex3.src (tokenStart + 1) lex3.pos
            match lexConsume quoteChar lex3 with
            | .error e => some (.error e)
            | .ok lex4 => some (.ok (.strTok tokStr, lex4))
        else if r = ':' then some (.ok (.colon, lex2))
        else if r = '{' then some (.ok (.lcurly, lex2))
        else if r = '}' then some (.ok (.rcurly, lex2))
        else if r = '(' then some (.ok (.lparen, lex2))
        else if r = ')' then some (.ok (.rparen, lex2))
        else if r = '*' then some (.ok (.star, lex2))
        else if r = '+' then some (.ok (.plus, lex2))
        else if r = '%' then some (.ok (.percent, lex2))
        else if r = ',' then some (.ok (.comma, lex2))
        else if r = '[' then some (.ok (.lsquare, lex2))
        else if r = ']' then some (.ok (.rsquare, lex2))
        else if r = '-' then some (.ok (.minus, lex2))
        else if r = '/' then some (.ok (.slash, lex2))
        else if r = '<' then
          if lexPeek lex2 = '=' then some (.ok (.lessEqual, lexAdvance lex2))
          else some (.ok (.less, lex2))
        else if r = '>' then
          if lexPeek lex2 = '=' then some (.ok (.greaterEqual, lexAdvance lex2))
          else some (.ok (.greater, lex2))
        else if r = '=' then
          if lexPeek lex2 = '=' then some (.ok (.equalEqual, lexAdvance lex2))
          else some (.ok (.equal, lex2))
        else if r = '!' then
          if lexPeek lex2 = '=' then some (.ok (.bangEqual, lexAdvance lex2))
          else some (.error ⟨.lexError, "unexpected character"⟩)
        else if r = '&' then
          if lexPeek lex2 = '&' then some (.ok (.ampAmp, lexAdvance lex2))
          else some (.error ⟨.lexError, "unexpected character"⟩)
        else if r = '|' then
          if lexPeek lex2 = '|' then some (.ok (.pipePipe, lexAdvance lex2))
          else some (.error ⟨.lexError, "unexpected character"⟩)
        else some (.error ⟨.lexError, "unexpected character"⟩)

/-! ## Abstract syntax (src/src/ast.go, third revision)

Expression and statement node types.  Diagnostic token fields (every node
keeps its leftmost token only for error line attribution) are dropped;
the binary operator keeps its token tag.  A `StmtFor` with no iterated
expression is the evaluator's infinite-loop form. -/

mutual
inductive Expr
  | strLit (s : String)
  | numLit (n : Int)
  | nilLit
  | ident (name : String)
  | arrayLit (items : List Expr)
  | mapLit (items : List (String × Expr))
  | binary (lhs rhs : Expr) (op : Tok)
  | funcall (callee : Expr) (args : List Expr)
  | funcLit (name : String) (params : List String) (body : Stmt)
deriving Repr
inductive Stmt
  | exprStmt (e : Expr)
  | block (body : List Stmt)
  | varDecl (name : String) (value : Expr)
  | forLoop (name idxName : String) (value : Option Expr) (body : Stmt)
  | ifStmt (cond : Expr) (body : Stmt) (elseBody : Option Stmt)
  | retStmt (value : Expr)
  | contStmt
  | breakStmt
  | matchStmt (value : Expr) (cases : List (Expr × Stmt))
  | sectionStmt (label : String) (body : Stmt)
deriving Repr
end

/-! ## Values, heap and environments (src/src/value.go, src/src/eval.go)

Go arrays, maps and ranges are pointer-shared mutable structures; they are
modelled as addresses into per-kind heaps carried in the evaluation state.
A closure (`Closure` in value.go) pairs the function literal's fields with
the address of the environment chain captured at its definition site.
Native-function values are not modelled as first-class values; the one
native the claims are about, `sort`, is embedded standalone below. -/

/-- Mirror of `Range` from value.go.  The Go field `end` is `endVal`
here (`end` is reserved in Lean). -/
structure RangeV where
  current : Int
  endVal : Int
  step : Int
deriving DecidableEq, Repr

inductive Value
  | vnil
  | vstr (s : String)
  | vnum (n : Int)
  | varr (addr : Nat)
  | vmap (addr : Nat)
  | vrange (addr : Nat)
  | vfn (name : String) (params : List String) (body : Stmt) (envAddr : Nat)
deriving Repr

/-- One scope of the environment chain (`Env` in eval.go): its parent
pointer and its own bindings.  The chain is an arena: scopes are appended
and never removed, `popEnv` only moves the current-scope index, which is
what lets closures keep their captured chain alive. -/
structure EnvNode where
  parent : Option Nat
  vars : List (String × Value)
deriving Repr

/-- The full mutable state of an evaluation: the three heaps, the
environment arena with the current scope index (`Evaluator.env`), and the
active-section guard (`Evaluator.section != nil`). -/
structure State where
  arrays : List (List Value)
  maps : List (List (String × Value))
  ranges : List RangeV
  envs : List EnvNode
  cur : Nat
  active : Bool
deriving Repr

/-- The root state built by `NewEvaluator` before any script runs: one
root scope and empty heaps.  The native-function bindings the source
installs in the root scope are not modelled (no claim evaluates a native
through the environment). -/
def initState : State :=
  { arrays := [], maps := [], ranges := [], envs := [⟨none, []⟩], cur := 0, active := false }

/-- Outcome of one evaluation step.  `ok` is a normal result; `ret`,
`brk` and `cont` are the `returnValue`, `breakError` and `continueError`
error values that eval.go returns from `evalStmt`; `err` is a Go `panic`
of the interpreter's own `Error` type (raised by `fmtError` call sites and
recovered by nothing inside the evaluator); `goPanic` is a host-level Go
runtime panic or a panic of any non-`Error` type, which crashes the
process (the driver's `recover` re-panics anything that is not an
`Error`); `fuelOut` means the model's fuel bound was reached. -/
inductive Outcome (α : Type)
  | ok (a : α) (s : State)
  | ret (v : Value) (s : State)
  | brk (s : State)
  | cont (s : State)
  | err (e : LangError) (s : State)
  | goPanic (msg : String)
  | fuelOut
deriving Repr

/-- State-threading evaluation monad. -/
def M (α : Type) : Type := State → Outcome α

instance : Monad M where
  pure a := fun s => .ok a s
  bind m g := fun s =>
    match m s with
    | .ok a s1 => g a s1
    | .ret v s1 => .ret v s1
    | .brk s1 => .brk s1
    | .cont s1 => .cont s1
    | .err e s1 => .err e s1
    | .goPanic msg => .goPanic msg
    | .fuelOut => .fuelOut

/-- Raise a runtime error, as the `panic(ev.fmtError(...))` call sites
do. -/
def mErr (msg : String) : M α := fun s => .err ⟨.runtimeError, msg⟩ s

/-- A host-level Go panic. -/
def mGoPanic (msg : String) : M α := fun _ => .goPanic msg

/-- The `returnValue` escape created by a `return` statement. -/
def mRetV (v : Value) : M α := fun s => .ret v s

/-- The `breakError` escape. -/
def mBrk : M α := fun s => .brk s

/-- The `continueError` escape. -/
def mCont : M α := fun s => .cont s

/-- Fuel exhaustion of the model. -/
def mFuelOut : M α := fun _ => .fuelOut

/-- Allocate a fresh array cell (a new Go slice) and return its value. -/
def allocArray (l : List Value) : M Value := fun s =>
  .ok (.varr s.arrays.length) { s with arrays := s.arrays ++ [l] }

/-- Read an array cell. -/
def readArray (addr : Nat) : M (List Value) := fun s =>
  match s.arrays.get? addr with
  | some l => .ok l s
  | none => .goPanic "invalid array address"

/-- Overwrite an array cell in place (shared by every alias). -/
def writeArray (addr : Nat) (l : List Value) : M Unit := fun s =>
  .ok () { s with arrays := s.arrays.set addr l }

/-- Allocate a fresh map cell and return its value. -/
def allocMap (entries : List (String × Value)) : M Value := fun s =>
  .ok (.vmap s.maps.length) { s with maps := s.maps ++ [entries] }

/-- Read a map cell. -/
def readMap (addr : Nat) : M (List (String × Value)) := fun s =>
  match s.maps.get? addr with
  | some l => .ok l s
  | none => .goPanic "invalid map address"

/-- Overwrite a map cell in place. -/
def writeMap (addr : Nat) (entries : List (String × Value)) : M Unit := fun s =>
  .ok () { s with maps := s.maps.set addr entries }

/-- Allocate a fresh range cell and return its value. -/
def allocRange (r : RangeV) : M Value := fun s =>
  .ok (.vrange s.ranges.length) { s with ranges := s.ranges ++ [r] }

/-- Setting a key in a Go map, on the association-list representation:
replace the binding in place if the key is present, otherwise append. -/
def assocSet (k : String) (v : Value) : List (String × Value) → List (String × Value)
  | [] => [(k, v)]
  | (k2, v2) :: rest => if k2 = k then (k2, v) :: rest else (k2, v2) :: assocSet k v rest

/-- Mirror of `Evaluator.pushEnv`: append a fresh scope whose parent is
the current scope and make it current.  Never fails, so it is a pure
state function. -/
def pushEnvPure (s : State) : State :=
  { s with envs := s.envs ++ [⟨some s.cur, []⟩], cur := s.envs.length }

/-- Push a fresh scope chained off an arbitrary scope (used by closure
calls, which first swap `ev.env` to the captured chain and then push). -/
def pushEnvPureAt (parent : Nat) (s : State) : State :=
  { s with envs := s.envs ++ [⟨some parent, []⟩], cur := s.envs.length }

/-- Mirror of `Evaluator.popEnv`: step back to the parent scope; popping
the root scope is a hard panic in the source. -/
def popEnvS (s : State) : Option State :=
  match s.envs.get? s.cur with
  | some node =>
    match node.parent with
    | some p => some { s with cur := p }
    | none => none
  | none => none

/-- Run a deferred `popEnv` over an outcome, as the `defer ev.popEnv()`
in the source runs on every exit path (normal return, returned
control-flow error, or unwinding `Error` panic). -/
def finallyPop : Outcome α → Outcome α
  | .ok a s =>
    match popEnvS s with
    | some s1 => .ok a s1
    | none => .goPanic "attempted to pop last env"
  | .ret v s =>
    match popEnvS s with
    | some s1 => .ret v s1
    | none => .goPanic "attempted to pop last env"
  | .brk s =>
    match popEnvS s with
    | some s1 => .brk s1
    | none => .goPanic "attempted to pop last env"
  | .cont s =>
    match popEnvS s with
    | some s1 => .cont s1
    | none => .goPanic "attempted to pop last env"
  | .err e s =>
    match popEnvS s with
    | some s1 => .err e s1
    | none => .goPanic "attempted to pop last env"
  | .goPanic msg => .goPanic msg
  | .fuelOut => .fuelOut

/-- Run the deferred tail of a closure call (`popEnv` then restore
`ev.env` to the caller's environment) over an outcome. -/
def finallyRestore (prev : Nat) : Outcome α → Outcome α
  | .ok a s => .ok a { s with cur := prev }
  | .ret v s => .ret v { s with cur := prev }
  | .brk s => .brk { s with cur := prev }
  | .cont s => .cont { s with cur := prev }
  | .err e s => .err e { s with cur := prev }
  | .goPanic msg => .goPanic msg
  | .fuelOut => .fuelOut

/-- Mirror of `Evaluator.setEnv`: bind a name in the current scope. -/
def envSetM (name : String) (v : Value) : M Unit := fun s =>
  match s.envs.get? s.cur with
  | some node =>
    .ok () { s with envs := s.envs.set s.cur { node with vars := assocSet name v node.vars } }
  | none => .goPanic "invalid environment address"

/-- Walking loop of `Evaluator.updateEnv`: mutate the first scope on the
chain that already binds the name; if the chain is exhausted, do nothing
(assignment to an undeclared name is a silent no-op).  Parent indices
strictly decrease along any chain built by `pushEnv`, so the fuel bound
`envs.length + 1` never runs out on reachable states. -/
def envUpdateWalk : Nat → Nat → String → Value → State → State
  | 0, _, _, _, s => s
  | f + 1, idx, name, v, s =>
    match s.envs.get? idx with
    | none => s
    | some node =>
      if (node.vars.lookup name).isSome then
        { s with envs := s.envs.set idx { node with vars := assocSet name v node.vars } }
      else
        match node.parent with
        | none => s
        | some p => envUpdateWalk f p name v s

/-- Mirror of `Evaluator.updateEnv`. -/
def envUpdateM (name : String) (v : Value) : M Unit := fun s =>
  .ok () (envUpdateWalk (s.envs.length + 1) s.cur name v s)

/-- Walking loop of `Evaluator.find`: first binding of the name on the
chain, or `none`. -/
def envFindWalk : Nat → Nat → String → State → Option Value
  | 0, _, _, _ => none
  | f + 1, idx, name, s =>
    match s.envs.get? idx with
    | none => none
    | some node =>
      match node.vars.lookup name with
      | some v => some v
      | none =>
        match node.parent with
        | none => none
        | some p => envFindWalk f p name s

/-- Mirror of `Evaluator.find`. -/
def findVarM (name : String) : M (Option Value) := fun s =>
  .ok (envFindWalk (s.envs.length + 1) s.cur name s) s

/-- The current scope index (`ev.env` as a closure captures it). -/
def curEnvM : M Nat := fun s => .ok s.cur s

/-! ## Value operations (src/src/value.go) -/

/-- Tag names from the `ValueTag` stringer (`//go:generate stringer
-linecomment`): used by `%v`/`%s` formatting in error messages and in the
default `Repr`. -/
def tagName : Value → String
  | .vnil => "nil"
  | .vstr _ => "string"
  | .vnum _ => "number"
  | .varr _ => "array"
  | .vmap _ => "map"
  | .vrange _ => "range"
  | .vfn .. => "<fn>"

/-- Mirror of `Value.isTruthy`: only a nonzero number is truthy. -/
def isTruthy : Value → Bool
  | .vnum n => n != 0
  | _ => false

/-- Mirror of `Value.negate`: on a number, the absolute value of the
number minus one (mapping 0 to 1 and 1 to 0); `nil` otherwise. -/
def negateV : Value → Value
  | .vnum n => .vnum (if n - 1 < 0 then -(n - 1) else n - 1)
  | _ => .vnil

/-- Mirror of the `// coerce nils to 0` steps in `evalBinaryExpr`:
replace `nil` by the number zero, leave anything else alone. -/
def coerceNil : Value → Value
  | .vnil => .vnum 0
  | v => v

/-- Mirror of `Value.Compare`: equality on same-tagged numbers and
strings, `nil` equal only to `nil`, every other pairing an error. -/
def compareV : Value → Value → Except String Bool
  | .vnum a, .vnum b => .ok (a == b)
  | .vstr a, .vstr b => .ok (a == b)
  | .vnil, .vnil => .ok true
  | .vnil, _ => .ok false
  | _, .vnil => .ok false
  | a, b => .error ("cannot compare " ++ tagName a ++ " and " ++ tagName b)

/-- The subscript failure message of `Value.getKey`. -/
def subscriptErr (v key : Value) : String :=
  "cannot subscript a " ++ tagName v ++ " with a " ++ tagName key

/-- Mirror of `Value.getKey` (which returns `(Value, error)`): arrays
index by a bounds-checked integer; maps index by a string or by a number
rendered in decimal (`strconv.Itoa`), a missing key yielding the zero
`Value`, which is `Nil`; strings index by integer to a one-character
string, but only an excessive index is checked — a negative string index
hits Go's own bounds check and panics.  Every other combination is an
error naming both tags.  String bytes are modelled as characters. -/
def getKeyM (v key : Value) : M (Except String Value) :=
  match v with
  | .varr addr =>
    match key with
    | .vnum i => do
      let arr ← readArray addr
      if (arr.length : Int) ≤ i ∨ i < 0 then
        pure (.error ("index " ++ toString i ++ " out of range"))
      else
        match arr.get? i.toNat with
        | some x => pure (.ok x)
        | none => mGoPanic "index out of range"
    | _ => pure (.error (subscriptErr v key))
  | .vmap addr =>
    match key with
    | .vnum i => do
      let entries ← readMap addr
      pure (.ok ((entries.lookup (toString i)).getD .vnil))
    | .vstr ks => do
      let entries ← readMap addr
      pure (.ok ((entries.lookup ks).getD .vnil))
    | _ => pure (.error (subscriptErr v key))
  | .vstr str =>
    match key with
    | .vnum i =>
      if (str.length : Int) ≤ i then
        pure (.error ("index " ++ toString i ++ " out of range"))
      else if i < 0 then
        mGoPanic "runtime error: index out of range"
      else
        match str.toList.get? i.toNat with
        | some c => pure (.ok (.vstr (String.mk [c])))
        | none => mGoPanic "index out of range"
    | _ => pure (.error (subscriptErr v key))
  | _ => pure (.error (subscriptErr v key))

/-- Mirror of `Value.setKey` (which returns a success flag): arrays write
by integer index with NO bounds check of their own — an out-of-range
index hits Go's slice bounds check and panics the process; maps write by
string or decimal-rendered number key; everything else reports `false`
(not subscriptable). -/
def setKeyM (v key val : Value) : M Bool :=
  match v with
  | .varr addr =>
    match key with
    | .vnum i => do
      let arr ← readArray addr
      if i < 0 ∨ (arr.length : Int) ≤ i then
        mGoPanic "runtime error: index out of range"
      else do
        writeArray addr (arr.set i.toNat val)
        pure true
    | _ => pure false
  | .vmap addr =>
    match key with
    | .vnum i => do
      let entries ← readMap addr
      writeMap addr (assocSet (toString i) val entries)
      pure true
    | .vstr ks => do
      let entries ← readMap addr
      writeMap addr (assocSet ks val entries)
      pure true
    | _ => pure false
  | _ => pure false

/-- The single-quote string used by `Repr` around string values. -/
def quoteStr : String := String.mk [quoteChar]

mutual
/-- Mirror of `Value.Repr`, fuelled because arrays and maps can be cyclic
through the heap (in which case the Go code never returns).  The map
rendering reproduces the source's backspace hack: a non-empty map ends in
two literal backspace characters before the closing brace. -/
def reprV : Nat → Value → M String
  | 0, _ => mFuelOut
  | f + 1, v =>
    match v with
    | .vnil => pure "nil"
    | .vstr s => pure (quoteStr ++ s ++ quoteStr)
    | .vnum n => pure (toString n)
    | .varr addr => do
      let items ← readArray addr
      let pieces ← reprListV f items
      pure ("[" ++ String.intercalate ", " pieces ++ "]")
    | .vmap addr => do
      let entries ← readMap addr
      let body ← reprEntriesV f entries
      if entries.isEmpty then pure "\x7b\x7d"
      else pure ("\x7b" ++ body ++ "\x08\x08\x7d")
    | other => pure ("<" ++ tagName other ++ ">\n")
/-- Renders array elements in order for `reprV`. -/
def reprListV : Nat → List Value → M (List String)
  | 0, _ => mFuelOut
  | _, [] => pure []
  | f + 1, v :: rest => do
    let rv ← reprV f v
    let rs ← reprListV f rest
    pure (rv :: rs)
/-- Renders map entries, each as `key: value, `, for `reprV`. -/
def reprEntriesV : Nat → List (String × Value) → M String
  | 0, _ => mFuelOut
  | _, [] => pure ""
  | f + 1, (k, v) :: rest => do
    let rv ← reprV f v
    let rs ← reprEntriesV f rest
    pure (k ++ ": " ++ rv ++ ", " ++ rs)
end

/-- Mirror of `Value.String`: unquoted rendering for `nil`, strings and
numbers, `Repr` for everything else. -/
def stringV (f : Nat) (v : Value) : M String :=
  match v with
  | .vnil => pure "nil"
  | .vstr s => pure s
  | .vnum n => pure (toString n)
  | other => reprV f other

/-- Tag test used by the `+` operator's string-concatenation branch. -/
def isStrV : Value → Bool
  | .vstr _ => true
  | _ => false

/-- Install the pattern bindings of a matched case into the current
scope, in order (per-iteration loop-variable semantics of the Go `range`
over the collected bindings). -/
def bindVars (vars : List (String × Value)) (s : State) : State :=
  match s.envs.get? s.cur with
  | some node =>
    let node1 := { node with vars := vars.foldl (fun acc kv => assocSet kv.1 kv.2 acc) node.vars }
    { s with envs := s.envs.set s.cur node1 }
  | none => s

/-- Bind each parameter name to its argument in the fresh call scope. -/
def bindParams : List String → List Value → M Unit
  | [], _ => pure ()
  | _, [] => pure ()
  | p :: ps, a :: as_ => do
    envSetM p a
    bindParams ps as_

/-! ## Evaluator (src/src/eval.go, third revision)

Every function takes a fuel argument, matched to `0 → fuelOut`, and hands
`fuel - 1` to every call, so evaluation is structurally recursive and all
of the source's unbounded loops (infinite `for`, ranges that never hit
their end value, recursion through closures) surface as `fuelOut` rather
than nontermination of the model. -/

mutual
/-- Mirror of `Evaluator.evalExpr`. -/
def evalExpr : Nat → Expr → M Value
  | 0, _ => mFuelOut
  | f + 1, e =>
    match e with
    | .strLit s => pure (.vstr s)
    | .numLit n => pure (.vnum n)
    | .nilLit => pure .vnil
    | .ident name => do
      let r ← findVarM name
      match r with
      | some v => pure v
      | none => mErr ("unknown variable " ++ name)
    | .funcall callee args => do
      let fv ← evalExpr f callee
      let avs ← evalExprList f args
      match fv with
      | .vfn name params body envAddr => fun s =>
        match (fnCallM f name params body envAddr avs s) with
        | .brk _ => .goPanic "panic: break escaped a function call"
        | .cont _ => .goPanic "panic: continue escaped a function call"
        | o => o
      | _ => mErr "attempted to call non function"
    | .funcLit name params body => do
      let envAddr ← curEnvM
      let v := Value.vfn name params body envAddr
      envSetM name v
      pure v
    | .binary lhs rhs op => evalBinaryExpr f lhs rhs op
    | .arrayLit items => do
      let vs ← evalExprList f items
      allocArray vs
    | .mapLit items => do
      let entries ← evalMapItems f items []
      allocMap entries

termination_by structural f _ => f
/-- Left-to-right evaluation of an argument or array-literal list. -/
def evalExprList : Nat → List Expr → M (List Value)
  | 0, _ => mFuelOut
  | _, [] => pure []
  | f + 1, e :: rest => do
    let v ← evalExpr f e
    let vs ← evalExprList f rest
    pure (v :: vs)

termination_by structural f _ => f
/-- Evaluation of map-literal items in order, each value stored under its
key with Go map-assignment semantics. -/
def evalMapItems : Nat → List (String × Expr) → List (String × Value) → M (List (String × Value))
  | 0, _, _ => mFuelOut
  | _, [], acc => pure acc
  | f + 1, (k, e) :: rest, acc => do
    let v ← evalExpr f e
    evalMapItems f rest (assocSet k v acc)

termination_by structural f _ _ => f
/-- Mirror of `Evaluator.evalBinaryExpr`.  Note that BOTH operands are
evaluated up front, before the operator is examined; `&&`/`||` do not
short-circuit.  Division and modulo perform the raw Go integer operation,
so a zero divisor is a host-level runtime panic, not an interpreter
error. -/
def evalBinaryExpr : Nat → Expr → Expr → Tok → M Value
  | 0, _, _, _ => mFuelOut
  | f + 1, lhsE, rhsE, op =>
    if op == .equal then evalAssignment f lhsE rhsE
    else do
      let lv ← evalExpr f lhsE
      let rv ← evalExpr f rhsE
      match op with
      | .plus =>
        let l := coerceNil lv
        let r := coerceNil rv
        match l, r with
        | .vnum a, .vnum b => pure (.vnum (a + b))
        | _, _ =>
          if isStrV l || isStrV r then do
            let ls ← stringV f l
            let rs ← stringV f r
            pure (.vstr (ls ++ rs))
          else mErr "operator only supported for numbers and strings"
      | .minus | .star | .slash | .percent =>
        let l := coerceNil lv
        let r := coerceNil rv
        match l, r with
        | .vnum a, .vnum b =>
          match op with
          | .minus => pure (.vnum (a - b))
          | .star => pure (.vnum (a * b))
          | .slash =>
            if b == 0 then mGoPanic "runtime error: integer divide by zero"
            else pure (.vnum (Int.tdiv a b))
          | .percent =>
            if b == 0 then mGoPanic "runtime error: integer divide by zero"
            else pure (.vnum (Int.tmod a b))
          | _ => mErr "unknown operator"
        | _, _ => mErr "operator only supported for numbers"
      | .equalEqual | .bangEqual =>
        match compareV lv rv with
        | .error msg => mErr msg
        | .ok b =>
          let val := Value.vnum (if b then 1 else 0)
          if op == .bangEqual then pure (negateV val) else pure val
      | .greater | .greaterEqual | .less | .lessEqual =>
        let l := coerceNil lv
        let r := coerceNil rv
        match l, r with
        | .vnum a, .vnum b =>
          let res :=
            match op with
            | .greater => decide (b < a)
            | .greaterEqual => decide (b ≤ a)
            | .less => decide (a < b)
            | .lessEqual => decide (a ≤ b)
            | _ => false
          pure (.vnum (if res then 1 else 0))
        | _, _ => mErr ("cannot compare " ++ tagName l ++ " and " ++ tagName r)
      | .ampAmp | .pipePipe =>
        let l := coerceNil lv
        let r := coerceNil rv
        match l, r with
        | .vnum _, .vnum _ =>
          let lt := isTruthy l
          let rt := isTruthy r
          let res :=
            match op with
            | .ampAmp => lt && rt
            | .pipePipe => lt || rt
            | _ => false
          pure (.vnum (if res then 1 else 0))
        | _, _ => mErr "operator only supported for numbers"
      | .lsquare => do
        let r ← getKeyM lv rv
        match r with
        | .error msg => mErr msg
        | .ok v => pure v
      | _ => mErr "unknown operator"

termination_by structural f _ _ _ => f
/-- Mirror of `Evaluator.evalAssignment`: an identifier target rebinds
through `updateEnv`; a subscript target evaluates the indexed value, the
key and the right-hand side, then delegates to `setKey`; anything else is
a runtime error. -/
def evalAssignment : Nat → Expr → Expr → M Value
  | 0, _, _ => mFuelOut
  | f + 1, lhsE, rhsE =>
    match lhsE with
    | .ident name => do
      let v ← evalExpr f rhsE
      envUpdateM name v
      pure v
    | .binary il ir iop =>
      if iop == .lsquare then do
        let lv ← evalExpr f il
        let kv ← evalExpr f ir
        let v ← evalExpr f rhsE
        let ok ← setKeyM lv kv v
        if ok then pure v
        else mErr (tagName lv ++ " is not subscriptable")
      else mErr "left hand side of assignment is not assignable"
    | _ => mErr "left hand side of assignment is not assignable"

termination_by structural f _ _ => f
/-- Mirror of `Evaluator.fn`: arity check, then swap to the captured
environment, push a call scope, bind the parameters, run the body
statements intercepting a `returnValue` escape; a deferred block pops the
scope and restores the caller's environment on every exit path.  A
`breakError`/`continueError` escaping the body is returned to the caller,
which panics it (see `evalExpr`). -/
def fnCallM : Nat → String → List String → Stmt → Nat → List Value → M Value
  | 0, _, _, _, _, _ => mFuelOut
  | f + 1, name, params, body, envAddr, args => fun s =>
    if params.length ≠ args.length then
      .err ⟨.runtimeError,
        "arity mismatch: " ++ name ++ " expects " ++ toString params.length ++ " arguments"⟩ s
    else
      let s1 := pushEnvPureAt envAddr s
      finallyRestore s.cur
        ((do
          bindParams params args
          match body with
          | .block stmts => runFnSeq f stmts
          | _ => mGoPanic "interface conversion: function body is not a block") s1)

termination_by structural f _ _ _ _ _ => f
/-- The statement loop of `Evaluator.fn`: a `returnValue` becomes the
call's value, falling off the end yields `Nil`, other escapes and errors
propagate. -/
def runFnSeq : Nat → List Stmt → M Value
  | 0, _ => mFuelOut
  | _, [] => pure .vnil
  | f + 1, st :: rest => fun s =>
    match evalStmt f st s with
    | .ok _ s1 => runFnSeq f rest s1
    | .ret v s1 => .ok v s1
    | .brk s1 => .brk s1
    | .cont s1 => .cont s1
    | .err e s1 => .err e s1
    | .goPanic msg => .goPanic msg
    | .fuelOut => .fuelOut

termination_by structural f _ => f
/-- Mirror of `Evaluator.evalStmt`. -/
def evalStmt : Nat → Stmt → M Value
  | 0, _ => mFuelOut
  | f + 1, st =>
    match st with
    | .varDecl name e => do
      let v ← evalExpr f e
      envSetM name v
      pure .vnil
    | .forLoop name idxName ve body => do
      forLoopM f name idxName ve body
      pure .vnil
    | .exprStmt e => evalExpr f e
    | .ifStmt condE body elseBody => do
      let v ← evalExpr f condE
      if isTruthy v then do
        evalBlockM f body
        pure .vnil
      else
        match elseBody with
        | some es => do
          let _ ← evalStmt f es
          pure .vnil
        | none => pure .vnil
    | .retStmt e => do
      let v ← evalExpr f e
      mRetV v
    | .contStmt => mCont
    | .breakStmt => mBrk
    | .matchStmt e cases => do
      matchM f e cases
      pure .vnil
    | .block stmts => do
      evalBlockM f (.block stmts)
      pure .vnil
    | .sectionStmt _ _ => mGoPanic "unhandled statement type"

termination_by structural f _ => f
/-- Statement sequencing inside a block: each returned error aborts the
rest (monadic bind propagates every non-`ok` outcome). -/
def evalStmtSeq : Nat → List Stmt → M Unit
  | 0, _ => mFuelOut
  | _, [] => pure ()
  | f + 1, st :: rest => do
    let _ ← evalStmt f st
    evalStmtSeq f rest

termination_by structural f _ => f
/-- Mirror of `Evaluator.evalBlock`: push a scope, run the statements,
pop the scope on every exit path; a non-block argument is a runtime
error. -/
def evalBlockM : Nat → Stmt → M Unit
  | 0, _ => mFuelOut
  | f + 1, b =>
    match b with
    | .block stmts => fun s => finallyPop (evalStmtSeq f stmts (pushEnvPure s))
    | _ => mErr "expected a block"

termination_by structural f _ => f
/-- Mirror of `Evaluator.forLoop`: dispatch on the iterated value.  The
array and range loops stop on the body's stop flag and propagate a
`returnValue` escape; the MAP loop calls `runForLoopBody` and discards
both of its results, so `break` does not stop a map iteration and a
`return` inside one is swallowed (interpreter `Error` panics still
unwind).  A missing iterated expression is the infinite loop. -/
def forLoopM : Nat → String → String → Option Expr → Stmt → M Unit
  | 0, _, _, _, _ => mFuelOut
  | f + 1, name, idxName, valueE, body =>
    match valueE with
    | none => fun s => finallyPop (loopInf f name idxName body (pushEnvPure s))
    | some e => do
      let v ← evalExpr f e
      match v with
      | .varr addr => do
        let items ← readArray addr
        fun s => finallyPop (loopArr f addr items.length 0 name idxName body (pushEnvPure s))
      | .vrange addr =>
        fun s => finallyPop (loopRange f addr name idxName body (pushEnvPure s))
      | .vmap addr => do
        let entries ← readMap addr
        fun s => finallyPop (mapIter f entries name idxName body (pushEnvPure s))
      | other => mErr (tagName other ++ " is not iterable")

termination_by structural f _ _ _ _ => f
/-- Array-iteration loop of `Evaluator.forLoop`: the length is fixed when
the loop starts (Go `range` over the slice snapshot) while the elements
are read live from the shared backing store. -/
def loopArr : Nat → Nat → Nat → Nat → String → String → Stmt → M Unit
  | 0, _, _, _, _, _, _ => mFuelOut
  | f + 1, addr, n, i, name, idxName, body => fun s =>
    if i < n then
      match s.arrays.get? addr with
      | none => .goPanic "invalid array address"
      | some items =>
        match runBodyM f name idxName body (items.getD i .vnil) (.vnum i) s with
        | .ok (stop, none) s1 =>
          if stop then .ok () s1
          else loopArr f addr n (i + 1) name idxName body s1
        | .ok (_, some v) s1 => .ret v s1
        | .ret v s1 => .ret v s1
        | .brk s1 => .brk s1
        | .cont s1 => .cont s1
        | .err e s1 => .err e s1
        | .goPanic msg => .goPanic msg
        | .fuelOut => .fuelOut
    else .ok () s

termination_by structural f _ _ _ _ _ _ => f
/-- Range-iteration loop of `Evaluator.forLoop`: the range cell is shared
and advanced in place by `rng.next()` after each iteration. -/
def loopRange : Nat → Nat → String → String → Stmt → M Unit
  | 0, _, _, _, _ => mFuelOut
  | f + 1, addr, name, idxName, body => fun s =>
    match s.ranges.get? addr with
    | none => .goPanic "invalid range address"
    | some rng =>
      if rng.current == rng.endVal then .ok () s
      else
        match runBodyM f name idxName body (.vnum rng.current) (.vnum rng.current) s with
        | .ok (stop, none) s1 =>
          if stop then .ok () s1
          else
            match s1.ranges.get? addr with
            | none => .goPanic "invalid range address"
            | some r2 =>
              let r3 := if r2.current == r2.endVal then r2
                        else { r2 with current := r2.current + r2.step }
              loopRange f addr name idxName body { s1 with ranges := s1.ranges.set addr r3 }
        | .ok (_, some v) s1 => .ret v s1
        | .ret v s1 => .ret v s1
        | .brk s1 => .brk s1
        | .cont s1 => .cont s1
        | .err e s1 => .err e s1
        | .goPanic msg => .goPanic msg
        | .fuelOut => .fuelOut

termination_by structural f _ _ _ _ => f
/-- Infinite-loop form of `Evaluator.forLoop` (no iterated expression):
relies entirely on `break`. -/
def loopInf : Nat → String → String → Stmt → M Unit
  | 0, _, _, _ => mFuelOut
  | f + 1, name, idxName, body => fun s =>
    match runBodyM f name idxName body .vnil .vnil s with
    | .ok (stop, none) s1 =>
      if stop then .ok () s1
      else loopInf f name idxName body s1
    | .ok (_, some v) s1 => .ret v s1
    | .ret v s1 => .ret v s1
    | .brk s1 => .brk s1
    | .cont s1 => .cont s1
    | .err e s1 => .err e s1
    | .goPanic msg => .goPanic msg
    | .fuelOut => .fuelOut

termination_by structural f _ _ _ => f
/-- Map-iteration loop of `Evaluator.forLoop`: for each entry the body
runs with the KEY (as a string) passed as the loop value and the entry's
VALUE passed as the index, and `runForLoopBody`'s results are
discarded. -/
def mapIter : Nat → List (String × Value) → String → String → Stmt → M Unit
  | 0, _, _, _, _ => mFuelOut
  | _, [], _, _, _ => pure ()
  | f + 1, (k, v) :: rest, name, idxName, body => fun s =>
    match runBodyM f name idxName body (.vstr k) v s with
    | .ok _ s1 => mapIter f rest name idxName body s1
    | .ret v1 s1 => .ret v1 s1
    | .brk s1 => .brk s1
    | .cont s1 => .cont s1
    | .err e s1 => .err e s1
    | .goPanic msg => .goPanic msg
    | .fuelOut => .fuelOut

termination_by structural f _ _ _ _ => f
/-- Mirror of `Evaluator.runForLoopBody`: bind the loop variables in the
loop's shared scope, then run the body's statements directly (no fresh
per-iteration scope).  Returns Go's `(stop, err)` pair with `err`
restricted to the only returned error that can reach the default branch,
a `returnValue`. -/
def runBodyM : Nat → String → String → Stmt → Value → Value → M (Bool × Option Value)
  | 0, _, _, _, _, _ => mFuelOut
  | f + 1, name, idxName, body, val, idx => do
    (if name ≠ "" then envSetM name val else pure ())
    (if idxName ≠ "" then envSetM idxName idx else pure ())
    match body with
    | .block stmts => runBodyStmts f stmts
    | _ => mGoPanic "interface conversion: for loop body is not a block"

termination_by structural f _ _ _ _ _ => f
/-- Statement loop of `runForLoopBody`: `breakError` maps to
`(true, nil)`, `continueError` to `(false, nil)` and any other returned
error (a `returnValue`) to `(true, err)`. -/
def runBodyStmts : Nat → List Stmt → M (Bool × Option Value)
  | 0, _ => mFuelOut
  | _, [] => pure (false, none)
  | f + 1, st :: rest => fun s =>
    match evalStmt f st s with
    | .ok _ s1 => runBodyStmts f rest s1
    | .brk s1 => .ok (true, none) s1
    | .cont s1 => .ok (false, none) s1
    | .ret v s1 => .ok (true, some v) s1
    | .err e s1 => .err e s1
    | .goPanic msg => .goPanic msg
    | .fuelOut => .fuelOut

termination_by structural f _ => f
/-- Mirror of `Evaluator.match`: evaluate the scrutinee once, then try
the cases in order. -/
def matchM : Nat → Expr → List (Expr × Stmt) → M Unit
  | 0, _, _ => mFuelOut
  | f + 1, scrutE, cases => do
    let cand ← evalExpr f scrutE
    matchCases f cand cases

termination_by structural f _ _ => f
/-- Case loop of `Evaluator.match`.  A string-literal pattern matches a
string scrutinee with equal content, and the error returned by running
its case body is DISCARDED (so escapes out of such a body are swallowed;
`Error` panics still unwind).  An array-literal pattern matches per
`tryArrPat`; the matched case's body runs in a fresh scope holding the
collected bindings, and its errors propagate.  Any other pattern shape is
a runtime error. -/
def matchCases : Nat → Value → List (Expr × Stmt) → M Unit
  | 0, _, _ => mFuelOut
  | _, _, [] => pure ()
  | f + 1, cand, (condE, body) :: rest =>
    match condE with
    | .strLit pat =>
      match cand with
      | .vstr sv =>
        if sv = pat then fun st =>
          match evalBlockM f body st with
          | .ok _ s1 => .ok () s1
          | .ret _ s1 => .ok () s1
          | .brk s1 => .ok () s1
          | .cont s1 => .ok () s1
          | .err e s1 => .err e s1
          | .goPanic msg => .goPanic msg
          | .fuelOut => .fuelOut
        else matchCases f cand rest
      | _ => matchCases f cand rest
    | .arrayLit patItems =>
      match cand with
      | .varr addr => do
        let r ← tryArrPat f addr patItems 0 []
        match r with
        | none => matchCases f cand rest
        | some vars => fun st =>
          let st1 := bindVars vars (pushEnvPure st)
          match body with
          | .block stmts => finallyPop (evalStmtSeq f stmts st1)
          | _ => .goPanic "interface conversion: match case body is not a block"
      | _ => matchCases f cand rest
    | _ => mErr "unsupported match type"

termination_by structural f _ _ => f
/-- Element loop of the array-pattern case of `Evaluator.match`: a
too-short scrutinee skips the case; an identifier element always matches
and records a binding; any other element is evaluated and compared with
`Value.Compare`, a comparison error being panicked as a plain Go error
(crashing the process) and a mismatch skipping the case.  Scrutinee
elements are read live from the shared array cell. -/
def tryArrPat : Nat → Nat → List Expr → Nat → List (String × Value) →
    M (Option (List (String × Value)))
  | 0, _, _, _, _ => mFuelOut
  | _, _, [], _, acc => pure (some acc)
  | f + 1, addr, item :: rest, idx, acc => do
    let arr ← readArray addr
    if arr.length ≤ idx then pure none
    else
      match item with
      | .ident id => tryArrPat f addr rest (idx + 1) (assocSet id (arr.getD idx .vnil) acc)
      | _ => do
        let itemVal ← evalExpr f item
        match compareV (arr.getD idx .vnil) itemVal with
        | .error msg => mGoPanic ("panic: " ++ msg)
        | .ok true => tryArrPat f addr rest (idx + 1) acc
        | .ok false => pure none
termination_by structural f _ _ _ _ => f
end

/-- Mirror of `Evaluator.EvalSection`: refuse to nest, look the section
up among the registered sections (a missing one is a non-`Error` panic),
evaluate its body with the guard set, intercept a `returnValue` escape as
the section's value, and clear the guard on every exit path (it is
cleared by a deferred function, which also runs while an `Error` panic
unwinds).  A `breakError`/`continueError` escaping the body is handed
back to the driver unchanged (which then panics it). -/
def evalSection (f : Nat) (sections : List (String × Stmt)) (name : String) : M Value :=
  fun s =>
    if s.active then .goPanic "cannot nest sections"
    else
      match sections.lookup name with
      | none => .goPanic ("couldn't find section " ++ name)
      | some body =>
        match evalStmt f body { s with active := true } with
        | .ok v s1 => .ok v { s1 with active := false }
        | .ret v s1 => .ok v { s1 with active := false }
        | .brk s1 => .brk { s1 with active := false }
        | .cont s1 => .cont { s1 with active := false }
        | .err e s1 => .err e { s1 with active := false }
        | .goPanic msg => .goPanic msg
        | .fuelOut => .fuelOut

/-- A state-erased view of an evaluation outcome, convenient for stating
what a concrete program does without spelling out the final heap. -/
inductive OutSummary
  | ok (v : Value)
  | ret (v : Value)
  | brk
  | cont
  | err (e : LangError)
  | goPanic (msg : String)
  | fuelOut
deriving Repr

/-- Forget the final state of an outcome. -/
def Outcome.summary : Outcome Value → OutSummary
  | .ok v _ => .ok v
  | .ret v _ => .ret v
  | .brk _ => .brk
  | .cont _ => .cont
  | .err e _ => .err e
  | .goPanic msg => .goPanic msg
  | .fuelOut => .fuelOut

/-! ## Parser (src/src/parser.go)

The parser consumes the token stream with one token of lookahead; here
the stream is the remaining token list (always ending in `.eof`), the
head being `p.token`.  Precedence levels are numbered as in the source:
none 0, assignment 1, logical 2, comparison 3, sum 4, product 5,
call/subscript 6 (highest). -/

/-- Parse result: a value with the remaining tokens, a parse error, or
fuel exhaustion of the model. -/
inductive PRes (α : Type)
  | ok (a : α) (rest : List Tok)
  | perr (msg : String)
  | fuelOut
deriving Repr

/-- The parsing monad over the remaining token list. -/
def P (α : Type) : Type := List Tok → PRes α

instance : Monad P where
  pure a := fun ts => .ok a ts
  bind m g := fun ts =>
    match m ts with
    | .ok a ts1 => g a ts1
    | .perr msg => .perr msg
    | .fuelOut => .fuelOut

/-- Raise a parse error (`panic(p.fmtError(...))`). -/
def pErr (msg : String) : P α := fun _ => .perr msg

/-- Fuel exhaustion of the parser model. -/
def pFuelOut : P α := fun _ => .fuelOut

/-- The current token, `p.token` (the head of the stream). -/
def pPeek : P Tok := fun ts => .ok (ts.headD .eof) ts

/-- Token-kind names from the `TokenTag` stringer, used in parse error
messages. -/
def tokName : Tok → String
  | .eof => "EOF"
  | .identTok _ => "Identifier"
  | .strTok _ => "Str"
  | .numTok _ => "Num"
  | .colon => ":"
  | .lcurly => "\x7b"
  | .rcurly => "\x7d"
  | .lparen => "("
  | .rparen => ")"
  | .lsquare => "["
  | .rsquare => "]"
  | .equal => "="
  | .equalEqual => "=="
  | .bangEqual => "!="
  | .greater => ">"
  | .greaterEqual => ">="
  | .less => "<"
  | .lessEqual => "<="
  | .plus => "+"
  | .star => "*"
  | .comma => ","
  | .minus => "-"
  | .slash => "/"
  | .percent => "%"
  | .ampAmp => "&&"
  | .pipePipe => "||"
  | .kvar => "var"
  | .kfor => "for"
  | .kin => "in"
  | .kif => "if"
  | .kreturn => "return"
  | .kcontinue => "continue"
  | .kmatch => "match"
  | .kelse => "else"
  | .kbreak => "break"
  | .kfn => "fn"
  | .knil => "nil"

/-- Tag equality ignoring payloads, as the Go parser compares
`TokenTag`s. -/
def tokSameKind (a b : Tok) : Bool :=
  match a, b with
  | .identTok _, .identTok _ => true
  | .strTok _, .strTok _ => true
  | .numTok _, .numTok _ => true
  | .identTok _, _ => false
  | .strTok _, _ => false
  | .numTok _, _ => false
  | _, .identTok _ => false
  | _, .strTok _ => false
  | _, .numTok _ => false
  | x, y => x == y

/-- Mirror of `Parser.consume`: if the current token has one of the
expected tags, step over it and hand it back, otherwise raise a parse
error naming the expectation. -/
def pConsume (expected : List Tok) : P Tok := fun ts =>
  let t := ts.headD .eof
  if expected.any (fun ex => tokSameKind ex t) then .ok t (ts.drop 1)
  else
    match expected with
    | [single] => .perr ("expected " ++ tokName single ++ " but saw " ++ tokName t)
    | more =>
      .perr ("expected one of " ++ String.intercalate ", " (more.map tokName) ++
        " but saw " ++ tokName t)

/-- The identifier/string/number payload of a token (`lex.GetString`). -/
def tokText : Tok → String
  | .identTok s => s
  | .strTok s => s
  | .numTok s => s
  | _ => ""

/-- Digit-run accumulator for `atoi`. -/
def atoiChars (acc : Nat) : List Char → Option Nat
  | [] => some acc
  | c :: rest => if c.isDigit then atoiChars (acc * 10 + (c.toNat - 48)) rest else none

/-- Mirror of `strconv.Atoi` on the digit runs the lexer produces as
number tokens: their decimal value (an empty or non-digit text is an
error, `none`). -/
def atoi (s : String) : Option Nat :=
  match s.toList with
  | [] => none
  | l => atoiChars 0 l

/-- Precedence table of `Parser.expressionWithPrec`: the level of each
binary operator token, or `none` for any token the table does not list
(on which the climb stops and hands back the left operand).  Note that
the source's table has NO case for `PipePipe` or `LessEqual`, although
the lexer produces both tokens and the evaluator implements both
operators. -/
def opLevel : Tok → Option Nat
  | .equal => some 1
  | .ampAmp => some 2
  | .equalEqual | .greater | .greaterEqual | .less | .bangEqual => some 3
  | .plus | .minus => some 4
  | .star | .slash | .percent => some 5
  | _ => none

mutual
/-- Mirror of `Parser.section`. -/
def pSection : Nat → P Stmt
  | 0 => pFuelOut
  | f + 1 => do
    let t ← pConsume [.identTok ""]
    let label := tokText t
    let _ ← pConsume [.colon]
    let cur ← pPeek
    match cur with
    | .lcurly => do
      let b ← pBlock f
      pure (.sectionStmt label b)
    | _ => do
      let e ← pExpression f
      pure (.sectionStmt label (.exprStmt e))

/-- Mirror of `Parser.block`. -/
def pBlock : Nat → P Stmt
  | 0 => pFuelOut
  | f + 1 => do
    let _ ← pConsume [.lcurly]
    let stmts ← pBlockStmts f
    let _ ← pConsume [.rcurly]
    pure (.block stmts)
termination_by structural f => f

/-- Statement loop of `Parser.block`: parse statements until the current
token is a closing brace. -/
def pBlockStmts : Nat → P (List Stmt)
  | 0 => pFuelOut
  | f + 1 => do
    let cur ← pPeek
    match cur with
    | .rcurly => pure []
    | _ => do
      let st ← pStatement f
      let rest ← pBlockStmts f
      pure (st :: rest)
termination_by structural f => f

/-- Mirror of `Parser.statement`. -/
def pStatement : Nat → P Stmt
  | 0 => pFuelOut
  | f + 1 => do
    let cur ← pPeek
    match cur with
    | .kvar => pVarDecl f
    | .kfor => pForLoop f
    | .kif => pIfStmt f
    | .kreturn => do
      let _ ← pConsume [.kreturn]
      let e ← pExpression f
      pure (.retStmt e)
    | .kcontinue => do
      let _ ← pConsume [.kcontinue]
      pure .contStmt
    | .kbreak => do
      let _ ← pConsume [.kbreak]
      pure .breakStmt
    | .kmatch => pMatchStmt f
    | .lcurly => pBlock f
    | _ => do
      let e ← pExpression f
      pure (.exprStmt e)
termination_by structural f => f

/-- Mirror of `Parser.varDecl`. -/
def pVarDecl : Nat → P Stmt
  | 0 => pFuelOut
  | f + 1 => do
    let _ ← pConsume [.kvar]
    let t ← pConsume [.identTok ""]
    let _ ← pConsume [.equal]
    let e ← pExpression f
    pure (.varDecl (tokText t) e)
termination_by structural f => f

/-- Mirror of `Parser.forLoop`: `for ident [, ident] in expr block`. -/
def pForLoop : Nat → P Stmt
  | 0 => pFuelOut
  | f + 1 => do
    let _ ← pConsume [.kfor]
    let t ← pConsume [.identTok ""]
    let cur ← pPeek
    let idxIdent ←
      match cur with
      | .comma => do
        let _ ← pConsume [.comma]
        let t2 ← pConsume [.identTok ""]
        pure (tokText t2)
      | _ => pure ""
    let _ ← pConsume [.kin]
    let e ← pExpression f
    let body ← pBlock f
    pure (.forLoop (tokText t) idxIdent (some e) body)
termination_by structural f => f

/-- Mirror of `Parser.ifStmt` (with else-if chains). -/
def pIfStmt : Nat → P Stmt
  | 0 => pFuelOut
  | f + 1 => do
    let _ ← pConsume [.kif]
    let cond ← pExpression f
    let body ← pBlock f
    let cur ← pPeek
    match cur with
    | .kelse => do
      let _ ← pConsume [.kelse]
      let cur2 ← pPeek
      match cur2 with
      | .kif => do
        let eb ← pIfStmt f
        pure (.ifStmt cond body (some eb))
      | _ => do
        let eb ← pBlock f
        pure (.ifStmt cond body (some eb))
    | _ => pure (.ifStmt cond body none)
termination_by structural f => f

/-- Mirror of `Parser.matchStmt`. -/
def pMatchStmt : Nat → P Stmt
  | 0 => pFuelOut
  | f + 1 => do
    let _ ← pConsume [.kmatch]
    let v ← pExpression f
    let _ ← pConsume [.lcurly]
    let cases ← pMatchCases f
    let _ ← pConsume [.rcurly]
    pure (.matchStmt v cases)
termination_by structural f => f

/-- Case loop of `Parser.matchStmt`. -/
def pMatchCases : Nat → P (List (Expr × Stmt))
  | 0 => pFuelOut
  | f + 1 => do
    let cur ← pPeek
    match cur with
    | .rcurly => pure []
    | _ => do
      let cond ← pExpression f
      let _ ← pConsume [.colon]
      let body ← pBlock f
      let rest ← pMatchCases f
      pure ((cond, body) :: rest)
termination_by structural f => f

/-- Mirror of `Parser.expression`. -/
def pExpression : Nat → P Expr
  | 0 => pFuelOut
  | f + 1 => pExprPrec f 0
termination_by structural f => f

/-- Mirror of `Parser.expressionWithPrec`: at the highest level parse a
unary/postfix expression; otherwise parse the next-tighter level and
climb with `pBinLoop`. -/
def pExprPrec : Nat → Nat → P Expr
  | 0, _ => pFuelOut
  | f + 1, prec =>
    if prec == 6 then pUnary f
    else do
      let lhs ← pExprPrec f (prec + 1)
      pBinLoop f prec lhs
termination_by structural f => f

/-- The `for` loop of `Parser.expressionWithPrec`: while the current
token is an operator in the table whose level is at least `prec`, consume
it, parse the right operand one level tighter, and fold into a binary
node; a token with no table entry ends the climb at once. -/
def pBinLoop : Nat → Nat → Expr → P Expr
  | 0, _, _ => pFuelOut
  | f + 1, prec, lhs => fun ts =>
    let op := ts.headD .eof
    match opLevel op with
    | none => .ok lhs ts
    | some lvl =>
      if prec ≤ lvl then
        match pExprPrec f (prec + 1) (ts.drop 1) with
        | .ok rhs ts2 => pBinLoop f prec (.binary lhs rhs op) ts2
        | .perr msg => .perr msg
        | .fuelOut => .fuelOut
      else .ok lhs ts
termination_by structural f => f

/-- Mirror of `Parser.unary`: a primary with at most one postfix call or
subscript. -/
def pUnary : Nat → P Expr
  | 0 => pFuelOut
  | f + 1 => do
    let lhs ← pPrimary f
    let cur ← pPeek
    match cur with
    | .lparen => do
      let _ ← pConsume [.lparen]
      let args ← pCallArgs f
      let _ ← pConsume [.rparen]
      pure (.funcall lhs args)
    | .lsquare => do
      let _ ← pConsume [.lsquare]
      let idx ← pExpression f
      let _ ← pConsume [.rsquare]
      pure (.binary lhs idx .lsquare)
    | _ => pure lhs
termination_by structural f => f

/-- Argument loop of `Parser.unary`'s call branch: arguments until the
closing parenthesis, separated by commas; a missing comma ends the loop
(the following `consume(RParen)` then reports the error). -/
def pCallArgs : Nat → P (List Expr)
  | 0 => pFuelOut
  | f + 1 => do
    let cur ← pPeek
    match cur with
    | .rparen => pure []
    | _ => do
      let arg ← pExpression f
      let cur2 ← pPeek
      match cur2 with
      | .comma => do
        let _ ← pConsume [.comma]
        let rest ← pCallArgs f
        pure (arg :: rest)
      | _ => pure [arg]
termination_by structural f => f

/-- Mirror of `Parser.primary`. -/
def pPrimary : Nat → P Expr
  | 0 => pFuelOut
  | f + 1 => do
    let cur ← pPeek
    match cur with
    | .strTok _ => do
      let t ← pConsume [.strTok ""]
      pure (.strLit (tokText t))
    | .numTok _ => do
      let t ← pConsume [.numTok ""]
      match atoi (tokText t) with
      | some n => pure (.numLit (Int.ofNat n))
      | none => pErr "invalid number literal"
    | .knil => do
      let _ ← pConsume [.knil]
      pure .nilLit
    | .identTok _ => do
      let t ← pConsume [.identTok ""]
      pure (.ident (tokText t))
    | .lsquare => pArrayLit f
    | .lcurly => pHashMap f
    | .lparen => do
      let _ ← pConsume [.lparen]
      let e ← pExpression f
      let _ ← pConsume [.rparen]
      pure e
    | .kfn => pFn f
    | other => pErr ("expected a value but found " ++ tokName other)
termination_by structural f => f

/-- Mirror of `Parser.array`: bracketed items until the closing bracket,
commas tolerated. -/
def pArrayLit : Nat → P Expr
  | 0 => pFuelOut
  | f + 1 => do
    let _ ← pConsume [.lsquare]
    let items ← pArrayItems f
    let _ ← pConsume [.rsquare]
    pure (.arrayLit items)
termination_by structural f => f

/-- Item loop of `Parser.array`. -/
def pArrayItems : Nat → P (List Expr)
  | 0 => pFuelOut
  | f + 1 => do
    let cur ← pPeek
    match cur with
    | .rsquare => pure []
    | _ => do
      let item ← pExpression f
      let cur2 ← pPeek
      let _ ←
        match cur2 with
        | .comma => pConsume [.comma]
        | _ => pure .comma
      let rest ← pArrayItems f
      pure (item :: rest)
termination_by structural f => f

/-- Mirror of `Parser.hashMap`: brace-delimited `key : value` items with
identifier or number keys, commas tolerated. -/
def pHashMap : Nat → P Expr
  | 0 => pFuelOut
  | f + 1 => do
    let _ ← pConsume [.lcurly]
    let items ← pHashItems f
    let _ ← pConsume [.rcurly]
    pure (.mapLit items)
termination_by structural f => f

/-- Item loop of `Parser.hashMap`. -/
def pHashItems : Nat → P (List (String × Expr))
  | 0 => pFuelOut
  | f + 1 => do
    let cur ← pPeek
    match cur with
    | .rcurly => pure []
    | _ => do
      let keyTok ← pConsume [.identTok "", .numTok ""]
      let _ ← pConsume [.colon]
      let v ← pExpression f
      let cur2 ← pPeek
      let _ ←
        match cur2 with
        | .comma => pConsume [.comma]
        | _ => pure .comma
      let rest ← pHashItems f
      pure ((tokText keyTok, v) :: rest)
termination_by structural f => f

/-- Mirror of `Parser.fn`: `fn [name] ( params ) block`, the name
defaulting to the anonymous marker. -/
def pFn : Nat → P Expr
  | 0 => pFuelOut
  | f + 1 => do
    let _ ← pConsume [.kfn]
    let cur ← pPeek
    let nm ←
      match cur with
      | .identTok _ => do
        let t ← pConsume [.identTok ""]
        pure (tokText t)
      | _ => pure "<anonymous>"
    let _ ← pConsume [.lparen]
    let params ← pFnParams f
    let _ ← pConsume [.rparen]
    let body ← pBlock f
    pure (.funcLit nm params body)
termination_by structural f => f

/-- Parameter loop of `Parser.fn`. -/
def pFnParams : Nat → P (List String)
  | 0 => pFuelOut
  | f + 1 => do
    let cur ← pPeek
    match cur with
    | .rparen => pure []
    | _ => do
      let t ← pConsume [.identTok ""]
      let cur2 ← pPeek
      let _ ←
        match cur2 with
        | .comma => pConsume [.comma]
        | _ => pure .comma
      let rest ← pFnParams f
      pure (tokText t :: rest)
termination_by structural f => f
end

/-- Top-level loop of `Parser.Parse`: sections or standalone `fn`
literals until the stream is exhausted; anything else is a parse
error. -/
def pProgram : Nat → P (List Stmt)
  | 0 => pFuelOut
  | f + 1 => do
    let cur ← pPeek
    match cur with
    | .eof => pure []
    | .identTok _ => do
      let st ← pSection f
      let rest ← pProgram f
      pure (st :: rest)
    | .kfn => do
      let e ← pFn f
      let rest ← pProgram f
      pure (.exprStmt e :: rest)
    | _ => do
      let _ ← pConsume [.identTok "", .kfn]
      pure []

/-- Mirror of `Parser.Parse` on a complete token stream. -/
def parseProgram (f : Nat) (ts : List Tok) : PRes (List Stmt) :=
  pProgram f ts

/-! ## Native `sort` (src/src/runtime.go, `nativeSort`)

`nativeSort` checks its single array argument, copies the backing slice,
sorts the copy with `sort.Slice` under the comparison closure below, and
returns the copy as a new array value. -/

/-- The comparison closure `nativeSort` hands to `sort.Slice`: when the
left element is a number it dereferences the RIGHT element's number field
(a nil-pointer dereference — a host panic, `none` here — when the right
element is not a number), likewise for strings, and any other left tag
reports not-less. -/
def sortLess (a b : Value) : Option Bool :=
  match a with
  | .vnum n =>
    match b with
    | .vnum m => some (decide (n < m))
    | _ => none
  | .vstr s =>
    match b with
    | .vstr t => some (decide (s < t))
    | _ => none
  | _ => some false

/-- One insertion step of the sorting model: place `x` before the first
element `y` that is not less than it (`¬ less(y, x)`); `none` propagates
a comparison panic. -/
def sortInsert (x : Value) : List Value → Option (List Value)
  | [] => some [x]
  | y :: ys =>
    match sortLess y x with
    | none => none
    | some true => (sortInsert x ys).map (fun l => y :: l)
    | some false => some (x :: y :: ys)

/-- Model of `sort.Slice(dest, less)`: `sort.Slice` guarantees only that
`dest` ends up ordered under `less` (it is free to reorder elements that
compare equal both ways); it is modelled as an insertion sort.  For the
homogeneous number/string arrays whose sort order the specification
defines, the ordered arrangement of the element VALUES is unique (proved
below), so the result does not depend on this choice of algorithm. -/
def sortSliceModel : List Value → Option (List Value)
  | [] => some []
  | x :: xs => (sortSliceModel xs).bind (sortInsert x)

/-- Mirror of `nativeSort` including its `checkArgs(args, ValArray)`
prologue: exactly one argument of array tag, else a runtime error; then
sort a fresh copy of the backing slice and return it as a new array. -/
def nativeSort (args : List Value) : M Value :=
  match args with
  | [a] =>
    match a with
    | .varr addr => do
      let arr ← readArray addr
      match sortSliceModel arr with
      | none => mGoPanic "runtime error: invalid memory address or nil pointer dereference"
      | some dest => allocArray dest
    | other => mErr ("arg type mismatch: expected array got " ++ tagName other)
  | _ => mErr "arity mismatch"

/-- The non-strict order induced by the sort comparator: `a` precedes `b`
when `b` is not strictly less than `a`.  On numbers this is numeric `≤`,
on strings lexicographic `≤`. -/
def vle (a b : Value) : Prop := sortLess b a ≠ some true

instance (a b : Value) : Decidable (vle a b) := by
  unfold vle
  infer_instance

/-! ## Concrete scripts used in the claim checks -/

/-- Script body: `\x7b for v in \x7ba: 1\x7d \x7b return 42 \x7d  return 7 \x7d`
— a `return` inside a for-loop over a one-entry map, followed by a
second `return`. -/
def mapReturnProg : Stmt := .block [
  .forLoop "v" "" (some (.mapLit [("a", .numLit 1)])) (.block [.retStmt (.numLit 42)]),
  .retStmt (.numLit 7)]

/-- Same script with the map replaced by a one-element array. -/
def arrReturnProg : Stmt := .block [
  .forLoop "v" "" (some (.arrayLit [.numLit 1])) (.block [.retStmt (.numLit 42)]),
  .retStmt (.numLit 7)]

/-- Statement `count = count + 1`. -/
def incrCount : Stmt :=
  .exprStmt (.binary (.ident "count") (.binary (.ident "count") (.numLit 1) .plus) .equal)

/-- Script body: count iterations of a for-loop over a two-entry map
whose body ends in `break`, then return the count. -/
def mapBreakProg : Stmt := .block [
  .varDecl "count" (.numLit 0),
  .forLoop "v" "" (some (.mapLit [("a", .numLit 1), ("b", .numLit 2)]))
    (.block [incrCount, .breakStmt]),
  .retStmt (.ident "count")]

/-- Same count-then-break script over a three-element array. -/
def arrBreakProg : Stmt := .block [
  .varDecl "count" (.numLit 0),
  .forLoop "v" "" (some (.arrayLit [.numLit 1, .numLit 2, .numLit 3]))
    (.block [incrCount, .breakStmt]),
  .retStmt (.ident "count")]

/-- Count-then-break script over the range value bound to `r`. -/
def rangeBreakProg : Stmt := .block [
  .varDecl "count" (.numLit 0),
  .forLoop "v" "" (some (.ident "r")) (.block [incrCount, .breakStmt]),
  .retStmt (.ident "count")]

/-- A state whose root scope binds `r` to the range 3..7 (step 1). -/
def rangeState : State :=
  { arrays := [], maps := [], ranges := [⟨3, 7, 1⟩],
    envs := [⟨none, [("r", .vrange 0)]⟩], cur := 0, active := false }

/-- Script body: a three-element array loop whose body is `continue`
followed by `count = count + 1`, then return the count. -/
def arrContinueProg : Stmt := .block [
  .varDecl "count" (.numLit 0),
  .forLoop "v" "" (some (.arrayLit [.numLit 1, .numLit 2, .numLit 3]))
    (.block [.contStmt, incrCount]),
  .retStmt (.ident "count")]

/-- Script body: run `for va, kb in \x7bk: n\x7d` over a one-entry map and
return what the FIRST (value-position) identifier `va` was bound to. -/
def mapKVProgA (k : String) (n : Int) : Stmt := .block [
  .varDecl "x" .nilLit,
  .forLoop "va" "kb" (some (.mapLit [(k, .numLit n)]))
    (.block [.exprStmt (.binary (.ident "x") (.ident "va") .equal)]),
  .retStmt (.ident "x")]

/-- Same script returning what the SECOND (index-position) identifier
`kb` was bound to. -/
def mapKVProgB (k : String) (n : Int) : Stmt := .block [
  .varDecl "x" .nilLit,
  .forLoop "va" "kb" (some (.mapLit [(k, .numLit n)]))
    (.block [.exprStmt (.binary (.ident "x") (.ident "kb") .equal)]),
  .retStmt (.ident "x")]

/-- Script body: `var a = [1]  a[5] = 2` — an out-of-range
subscript-assignment. -/
def arrWriteOOBProg : Stmt := .block [
  .varDecl "a" (.arrayLit [.numLit 1]),
  .exprStmt (.binary (.binary (.ident "a") (.numLit 5) .lsquare) (.numLit 2) .equal)]

/-- The character sequence of the malformed source text consisting of an
opening string quote followed by `abc` and the end of input — a string
literal that is never terminated. -/
def untermSrc : List Char := [quoteChar, 'a', 'b', 'c']

/-! # Claim theorems -/

/-- C5: the claim states that a division or modulo whose right operand
evaluates (after nil-to-zero coercion) to 0 raises an interpreter Error
of kind Runtime attributed to the expression's line.  On the code it does
not: `evalBinaryExpr` performs the raw Go `/` and `%` on the operands, so
a zero divisor triggers Go's own "integer divide by zero" runtime panic,
which no recover converts into an interpreter `Error` — the process
crashes.  This theorem evaluates the code at the failing inputs `5 / 0`,
`5 % 0` and `5 / nil`. -/
theorem c5_div_by_zero_is_host_panic :
    (evalExpr 9 (.binary (.numLit 5) (.numLit 0) .slash) initState).summary
      = .goPanic "runtime error: integer divide by zero"
    ∧ (evalExpr 9 (.binary (.numLit 5) (.numLit 0) .percent) initState).summary
      = .goPanic "runtime error: integer divide by zero"
    ∧ (evalExpr 9 (.binary (.numLit 5) .nilLit .slash) initState).summary
      = .goPanic "runtime error: integer divide by zero" :=
  ⟨rfl, rfl, rfl⟩

/-- C6: the claim states that BOTH the out-of-range indexed read `a[i]`
and the out-of-range subscript-assignment `a[i] = v` raise a runtime
error.  The read half holds (`getKey` bounds-checks and the evaluator
wraps the failure in a Runtime error), but `setKey` has no bounds check
of its own: the write `a[5] = 2` on a one-element array hits Go's slice
bounds check and panics the process instead of raising an interpreter
error. -/
theorem c6_array_oob_read_errs_but_write_panics :
    (evalExpr 9 (.binary (.arrayLit [.numLit 1]) (.numLit 5) .lsquare) initState).summary
      = .err ⟨.runtimeError, "index 5 out of range"⟩
    ∧ (evalSection 20 [("part1", arrWriteOOBProg)] "part1" initState).summary
      = .goPanic "runtime error: index out of range" :=
  ⟨rfl, rfl⟩

/-- C1: the claim states that a `return` anywhere inside nested blocks,
loops, ifs and match cases transfers its value to the nearest enclosing
function call or section evaluation.  The map-iteration arm of `forLoop`
discards `runForLoopBody`'s results, so a `return` inside a for-loop over
a map is swallowed: the section body
`\x7b for v in \x7ba: 1\x7d \x7b return 42 \x7d  return 7 \x7d` evaluates to 7,
not 42 — execution falls through to the statement after the loop.  The
same body over a one-element array correctly yields 42. -/
theorem c1_return_swallowed_by_map_loop :
    (evalSection 20 [("part1", mapReturnProg)] "part1" initState).summary = .ok (.vnum 7)
    ∧ (evalSection 20 [("part1", arrReturnProg)] "part1" initState).summary = .ok (.vnum 42) :=
  ⟨rfl, rfl⟩

/-- C3: the claim states that `break` terminates a for-loop over any
iterable (array, range, or map) immediately.  Over a two-entry map the
count-then-break body runs for BOTH entries (the loop discards the body's
stop flag), yielding 2 where the claim requires 1; over an array and over
a range the same body runs exactly once, and `continue` correctly skips
the rest of an iteration's body. -/
theorem c3_break_ignored_by_map_loop :
    (evalSection 20 [("part1", mapBreakProg)] "part1" initState).summary = .ok (.vnum 2)
    ∧ (evalSection 20 [("part1", arrBreakProg)] "part1" initState).summary = .ok (.vnum 1)
    ∧ (evalSection 30 [("part1", rangeBreakProg)] "part1" rangeState).summary = .ok (.vnum 1)
    ∧ (evalSection 20 [("part1", arrContinueProg)] "part1" initState).summary = .ok (.vnum 0) :=
  ⟨rfl, rfl, rfl, rfl⟩

/-- C2 counterexample: the claim states that in `for va, kb in m` over a
map, the FIRST identifier is bound to an entry's value and the second to
its key rendered as a string.  Iterating the map `\x7ba: 7\x7d`, the first
identifier is bound to the string "a" — the KEY — and not to the value 7:
the claim is false at this input. -/
theorem c2_first_ident_bound_to_key :
    (evalSection 20 [("part1", mapKVProgA "a" 7)] "part1" initState).summary
      = .ok (.vstr "a")
    ∧ Value.vstr "a" ≠ Value.vnum 7 :=
  ⟨rfl, fun h => Value.noConfusion h⟩

/-- C2 amended: for a two-identifier for-loop over a map, each iteration
binds the FIRST identifier to the entry's key rendered as a string and
the SECOND identifier to the entry's value (iteration order unspecified):
for every key `k` and number `n`, looping over `\x7bk: n\x7d` leaves the
first identifier bound to the string `k` and the second bound to the
number `n`. -/
theorem c2_amended_map_loop_binds_key_then_value (k : String) (n : Int) :
    (evalSection 20 [("part1", mapKVProgA k n)] "part1" initState).summary = .ok (.vstr k)
    ∧ (evalSection 20 [("part1", mapKVProgB k n)] "part1" initState).summary = .ok (.vnum n) :=
  ⟨rfl, rfl⟩

/-- C2 witness: the amended binding rule at the concrete key "zz" and
value 5. -/
theorem c2_amended_witness :
    (evalSection 20 [("part1", mapKVProgA "zz" 5)] "part1" initState).summary = .ok (.vstr "zz")
    ∧ (evalSection 20 [("part1", mapKVProgB "zz" 5)] "part1" initState).summary = .ok (.vnum 5) :=
  c2_amended_map_loop_binds_key_then_value "zz" 5

/-- Helper for C7: once the cursor of the string-scanning loop has
reached the end of the unterminated input (offset 4), `advance` decodes a
zero-size replacement rune and the cursor never moves again, so the scan
exhausts any amount of fuel. -/
theorem strScan_unterm_stuck (ln : Nat) : ∀ f, strScan f ⟨untermSrc, 4, ln⟩ = none := by
  intro f
  induction f with
  | zero => rfl
  | succ f ih => exact ih

/-- Helper for C7: from offset 3 (the character "c") the scan steps to
the stuck end-of-input state. -/
theorem strScan_unterm3 (ln : Nat) : ∀ f, strScan f ⟨untermSrc, 3, ln⟩ = none := by
  intro f
  cases f with
  | zero => rfl
  | succ f => exact strScan_unterm_stuck ln f

/-- Helper for C7: from offset 2 (the character "b"). -/
theorem strScan_unterm2 (ln : Nat) : ∀ f, strScan f ⟨untermSrc, 2, ln⟩ = none := by
  intro f
  cases f with
  | zero => rfl
  | succ f => exact strScan_unterm3 ln f

/-- Helper for C7: from offset 1 (the character "a", right after the
opening quote) the scan never finds a closing quote. -/
theorem strScan_unterm1 (ln : Nat) : ∀ f, strScan f ⟨untermSrc, 1, ln⟩ = none := by
  intro f
  cases f with
  | zero => rfl
  | succ f => exact strScan_unterm2 ln f

/-- C7: the claim states that on malformed input such as an unterminated
string, `NextToken` terminates and reports an error.  On the code it does
not terminate: for the source consisting of a quote followed by `abc` and
the end of input, the scan loop of `Lexer.string` advances by zero-size
runes at the end of the buffer forever — `NextToken` exhausts EVERY fuel
bound instead of producing a token or a lex error (the error return in
`string` is reachable only after the loop has already found a closing
quote, so it is dead code). -/
theorem c7_unterminated_string_never_returns :
    ∀ f, nextToken f ⟨untermSrc, 0, 1⟩ = none := by
  intro f
  cases f with
  | zero => rfl
  | succ f =>
    show (match strScan (f + 1) ⟨untermSrc, 1, 1⟩ with
      | none => (none : Option (Except LangError (Tok × LexSt)))
      | some lex3 =>
        match lexConsume quoteChar lex3 with
        | .error e => some (.error e)
        | .ok lex4 => some (.ok (.strTok (lexSlice lex3.src (0 + 1) lex3.pos), lex4))) = none
    rw [strScan_unterm1 1 (f + 1)]

/-- C7 witness: even a fuel bound of one thousand steps is exhausted on
the four-character unterminated input. -/
theorem c7_witness :
    nextToken 1000 ⟨untermSrc, 0, 1⟩ = none :=
  c7_unterminated_string_never_returns 1000

/-- C4: the claim states the parser builds ASTs by the precedence
ordering assignment < logical(&&,||) < comparison(==,!=,>,>=,<,<=) <
sum < product < call/subscript, in particular that `a || b` parses as a
logical-tier binary node and `a <= b` as a comparison-tier one.  The
precedence table in `expressionWithPrec` has NO entry for `PipePipe` or
`LessEqual` — although the lexer produces both tokens and the evaluator
implements both operators — so the expression parser stops in front of
either token having consumed only `a`, and parsing the program `s: a || b`
(or `s: a <= b`) fails with a parse error instead of building the binary
node.  For contrast, `a && b` does parse at the logical tier, below
comparison, and `1 + 2 * 3` and `x = y == 4` follow the ordering. -/
theorem c4_pipepipe_lessequal_missing_from_prec_table :
    parseProgram 32 [.identTok "s", .colon, .identTok "a", .pipePipe, .identTok "b", .eof]
      = .perr "expected one of Identifier, fn but saw ||"
    ∧ parseProgram 32 [.identTok "s", .colon, .identTok "a", .lessEqual, .identTok "b", .eof]
      = .perr "expected one of Identifier, fn but saw <="
    ∧ pExpression 32 [.identTok "a", .pipePipe, .identTok "b", .eof]
      = .ok (.ident "a") [.pipePipe, .identTok "b", .eof]
    ∧ pExpression 32 [.identTok "a", .lessEqual, .identTok "b", .eof]
      = .ok (.ident "a") [.lessEqual, .identTok "b", .eof]
    ∧ pExpression 32 [.identTok "a", .ampAmp, .identTok "b", .equalEqual, .identTok "c", .eof]
      = .ok (.binary (.ident "a")
          (.binary (.ident "b") (.ident "c") .equalEqual) .ampAmp) [.eof]
    ∧ pExpression 32 [.numTok "1", .plus, .numTok "2", .star, .numTok "3", .eof]
      = .ok (.binary (.numLit 1)
          (.binary (.numLit 2) (.numLit 3) .star) .plus) [.eof]
    ∧ pExpression 32 [.identTok "x", .equal, .identTok "y", .equalEqual, .numTok "4", .eof]
      = .ok (.binary (.ident "x")
          (.binary (.ident "y") (.numLit 4) .equalEqual) .equal) [.eof] :=
  ⟨rfl, rfl, rfl, rfl, rfl, rfl, rfl⟩

/-- Running a bind whose first computation succeeds runs the
continuation on the result. -/
theorem run_bind_ok {α β : Type} (m : M α) (g : α → M β) (s s1 : State) (a : α)
    (h : m s = .ok a s1) : (m >>= g) s = g a s1 := by
  have e : (m >>= g) s =
      match m s with
      | .ok a s1 => g a s1
      | .ret v s1 => .ret v s1
      | .brk s1 => .brk s1
      | .cont s1 => .cont s1
      | .err e s1 => .err e s1
      | .goPanic msg => .goPanic msg
      | .fuelOut => .fuelOut := rfl
  rw [e, h]

/-- Running a bind whose first computation raises an interpreter error
propagates the error. -/
theorem run_bind_err {α β : Type} (m : M α) (g : α → M β) (s s1 : State) (e : LangError)
    (h : m s = .err e s1) : (m >>= g) s = .err e s1 := by
  have e2 : (m >>= g) s =
      match m s with
      | .ok a s1 => g a s1
      | .ret v s1 => .ret v s1
      | .brk s1 => .brk s1
      | .cont s1 => .cont s1
      | .err e s1 => .err e s1
      | .goPanic msg => .goPanic msg
      | .fuelOut => .fuelOut := rfl
  rw [e2, h]

/-- C10: for every map value and every string key (or number key,
coerced to its decimal rendering) that is absent from the map, the
indexed read succeeds and yields `Nil` rather than raising an error —
both at the level of `getKey` and through the evaluator's subscript
operator. -/
theorem c10_missing_map_key_reads_nil
    (s : State) (addr : Nat) (entries : List (String × Value)) (k : Value) (ks : String)
    (hm : s.maps.get? addr = some entries)
    (hk : k = .vstr ks ∨ ∃ n : Int, k = .vnum n ∧ ks = toString n)
    (hmiss : entries.lookup ks = none) :
    getKeyM (.vmap addr) k s = .ok (.ok .vnil) s
    ∧ ∀ (f : Nat) (a b : Expr) (s1 s2 s3 : State),
        evalExpr f a s1 = .ok (.vmap addr) s2 →
        evalExpr f b s2 = .ok k s3 →
        s3.maps.get? addr = some entries →
        evalExpr (f + 2) (.binary a b .lsquare) s1 = .ok .vnil s3 := by
  have core : ∀ t : State, t.maps.get? addr = some entries →
      getKeyM (.vmap addr) k t = .ok (.ok .vnil) t := by
    intro t ht
    have hr : readMap addr t = .ok entries t := by
      unfold readMap
      rw [ht]
    rcases hk with hk | ⟨n, hk, hks⟩
    · subst hk
      have e : getKeyM (.vmap addr) (.vstr ks) t
          = (readMap addr >>= fun es => pure (.ok ((es.lookup ks).getD .vnil))) t := rfl
      rw [e, run_bind_ok _ _ _ _ _ hr]
      have e2 : (pure (Except.ok ((entries.lookup ks).getD Value.vnil)) : M (Except String Value)) t
          = .ok (.ok ((entries.lookup ks).getD .vnil)) t := rfl
      rw [e2, hmiss]
      rfl
    · subst hk
      subst hks
      have e : getKeyM (.vmap addr) (.vnum n) t
          = (readMap addr >>= fun es => pure (.ok ((es.lookup (toString n)).getD .vnil))) t := rfl
      rw [e, run_bind_ok _ _ _ _ _ hr]
      have e2 : (pure (Except.ok ((entries.lookup (toString n)).getD Value.vnil)) :
          M (Except String Value)) t = .ok (.ok ((entries.lookup (toString n)).getD .vnil)) t := rfl
      rw [e2, hmiss]
      rfl
  refine ⟨core s hm, ?_⟩
  intro f a b s1 s2 s3 ha hb hm3
  have e : evalExpr (f + 2) (.binary a b .lsquare) s1
      = (evalExpr f a >>= fun lv => evalExpr f b >>= fun rv =>
          getKeyM lv rv >>= fun r =>
          match r with
          | .error msg => mErr msg
          | .ok v => pure v) s1 := rfl
  rw [e, run_bind_ok _ _ _ _ _ ha, run_bind_ok _ _ _ _ _ hb,
    run_bind_ok _ _ _ _ _ (core s3 hm3)]
  rfl

/-- C10 witness: reading the absent key "b" from the one-entry map
`\x7ba: 1\x7d` yields `Nil`, both through `getKey` directly and through
the subscript operator on the map literal. -/
theorem c10_witness :
    getKeyM (.vmap 0) (.vstr "b") { initState with maps := [[("a", .vnum 1)]] }
      = .ok (.ok .vnil) { initState with maps := [[("a", .vnum 1)]] }
    ∧ evalExpr 5 (.binary (.mapLit [("a", .numLit 1)]) (.strLit "b") .lsquare) initState
      = .ok .vnil { initState with maps := [[("a", .vnum 1)]] } := by
  have h := c10_missing_map_key_reads_nil { initState with maps := [[("a", .vnum 1)]] } 0
    [("a", .vnum 1)] (.vstr "b") "b" rfl (Or.inl rfl) rfl
  exact ⟨h.1, h.2 3 (.mapLit [("a", .numLit 1)]) (.strLit "b") initState
    { initState with maps := [[("a", .vnum 1)]] } { initState with maps := [[("a", .vnum 1)]] }
    rfl rfl rfl⟩

/-- Running `pure` yields the value with the state untouched. -/
theorem run_pure {α : Type} (a : α) (s : State) : (pure a : M α) s = .ok a s := rfl

/-- C9: evaluating `a && b` or `a || b` evaluates BOTH operand
expressions, left to right, before combining — there is no
short-circuiting.  Whatever the left operand produced: an error raised
while evaluating the right operand always surfaces (clause 1) and the
right operand's state effects always happen (every clause ends in the
state left by evaluating `b`).  When both operands are numbers after
nil-to-zero coercion the result is the number 1 or 0 obtained by
combining the two truthinesses (clause 2); when either coerced operand is
not a number the evaluation raises a runtime error (clause 3). -/
theorem c9_logical_ops_no_short_circuit
    (f : Nat) (a b : Expr) (op : Tok) (hop : op = .ampAmp ∨ op = .pipePipe)
    (s s1 : State) (va : Value) (h1 : evalExpr f a s = .ok va s1) :
    (∀ e s2, evalExpr f b s1 = .err e s2 →
      evalExpr (f + 2) (.binary a b op) s = .err e s2)
    ∧ (∀ vb s2 na nb, evalExpr f b s1 = .ok vb s2 →
        coerceNil va = .vnum na → coerceNil vb = .vnum nb →
        evalExpr (f + 2) (.binary a b op) s =
          .ok (.vnum (if (if op = .ampAmp then na ≠ 0 ∧ nb ≠ 0 else na ≠ 0 ∨ nb ≠ 0)
            then 1 else 0)) s2)
    ∧ (∀ vb s2, evalExpr f b s1 = .ok vb s2 →
        ((∀ x : Int, coerceNil va ≠ .vnum x) ∨ (∀ x : Int, coerceNil vb ≠ .vnum x)) →
        evalExpr (f + 2) (.binary a b op) s
          = .err ⟨.runtimeError, "operator only supported for numbers"⟩ s2) := by
  rcases hop with hAnd | hOr
  · subst hAnd
    have e : evalExpr (f + 2) (.binary a b Tok.ampAmp) s
        = (evalExpr f a >>= fun lv => evalExpr f b >>= fun rv =>
            match coerceNil lv, coerceNil rv with
            | .vnum _, .vnum _ =>
              pure (.vnum (if isTruthy (coerceNil lv) && isTruthy (coerceNil rv) then 1 else 0))
            | _, _ => mErr "operator only supported for numbers") s := rfl
    refine ⟨?_, ?_, ?_⟩
    · intro e2 s2 hb
      rw [e, run_bind_ok _ _ _ _ _ h1]
      exact run_bind_err _ _ _ _ _ hb
    · intro vb s2 na nb hb hna hnb
      rw [e, run_bind_ok _ _ _ _ _ h1, run_bind_ok _ _ _ _ _ hb, hna, hnb]
      simp [isTruthy, run_pure]
    · intro vb s2 hb hnn
      rw [e, run_bind_ok _ _ _ _ _ h1, run_bind_ok _ _ _ _ _ hb]
      rcases hnn with h | h
      · cases hva : coerceNil va with
        | vnum x => exact absurd hva (h x)
        | vnil => rfl
        | vstr _ => rfl
        | varr _ => rfl
        | vmap _ => rfl
        | vrange _ => rfl
        | vfn _ _ _ _ => rfl
      · cases hva : coerceNil va with
        | vnum x =>
          cases hvb : coerceNil vb with
          | vnum y => exact absurd hvb (h y)
          | vnil => rfl
          | vstr _ => rfl
          | varr _ => rfl
          | vmap _ => rfl
          | vrange _ => rfl
          | vfn _ _ _ _ => rfl
        | vnil => rfl
        | vstr _ => rfl
        | varr _ => rfl
        | vmap _ => rfl
        | vrange _ => rfl
        | vfn _ _ _ _ => rfl
  · subst hOr
    have e : evalExpr (f + 2) (.binary a b Tok.pipePipe) s
        = (evalExpr f a >>= fun lv => evalExpr f b >>= fun rv =>
            match coerceNil lv, coerceNil rv with
            | .vnum _, .vnum _ =>
              pure (.vnum (if isTruthy (coerceNil lv) || isTruthy (coerceNil rv) then 1 else 0))
            | _, _ => mErr "operator only supported for numbers") s := rfl
    refine ⟨?_, ?_, ?_⟩
    · intro e2 s2 hb
      rw [e, run_bind_ok _ _ _ _ _ h1]
      exact run_bind_err _ _ _ _ _ hb
    · intro vb s2 na nb hb hna hnb
      rw [e, run_bind_ok _ _ _ _ _ h1, run_bind_ok _ _ _ _ _ hb, hna, hnb]
      simp [isTruthy, run_pure]
    · intro vb s2 hb hnn
      rw [e, run_bind_ok _ _ _ _ _ h1, run_bind_ok _ _ _ _ _ hb]
      rcases hnn with h | h
      · cases hva : coerceNil va with
        | vnum x => exact absurd hva (h x)
        | vnil => rfl
        | vstr _ => rfl
        | varr _ => rfl
        | vmap _ => rfl
        | vrange _ => rfl
        | vfn _ _ _ _ => rfl
      · cases hva : coerceNil va with
        | vnum x =>
          cases hvb : coerceNil vb with
          | vnum y => exact absurd hvb (h y)
          | vnil => rfl
          | vstr _ => rfl
          | varr _ => rfl
          | vmap _ => rfl
          | vrange _ => rfl
          | vfn _ _ _ _ => rfl
        | vnil => rfl
        | vstr _ => rfl
        | varr _ => rfl
        | vmap _ => rfl
        | vrange _ => rfl
        | vfn _ _ _ _ => rfl

/-- C9 witness: with a falsy left operand, `0 && zz` still evaluates the
unknown right operand and raises its "unknown variable" error (a
short-circuiting `&&` would have returned 0); and `0 || 3` combines both
truthinesses into 1. -/
theorem c9_witness :
    evalExpr 3 (.binary (.numLit 0) (.ident "zz") .ampAmp) initState
      = .err ⟨.runtimeError, "unknown variable zz"⟩ initState
    ∧ evalExpr 3 (.binary (.numLit 0) (.numLit 3) .pipePipe) initState
      = .ok (.vnum 1) initState := by
  constructor
  · exact (c9_logical_ops_no_short_circuit 1 (.numLit 0) (.ident "zz") .ampAmp (Or.inl rfl)
      initState initState (.vnum 0) rfl).1 ⟨.runtimeError, "unknown variable zz"⟩ initState rfl
  · have h := (c9_logical_ops_no_short_circuit 1 (.numLit 0) (.numLit 3) .pipePipe (Or.inr rfl)
      initState initState (.vnum 0) rfl).2.1 (.vnum 3) initState 0 3 rfl rfl rfl
    simpa using h

/-- Transfer lemma: on elements drawn from one ordered element type
embedded into values, one insertion step of the sort model agrees with
`List.orderedInsert` on the underlying elements. -/
theorem sortInsert_map {β : Type} [LinearOrder β] (emb : β → Value)
    (hless : ∀ x y : β, sortLess (emb x) (emb y) = some (decide (x < y)))
    (x : β) (ms : List β) :
    sortInsert (emb x) (ms.map emb)
      = some ((List.orderedInsert (· ≤ ·) x ms).map emb) := by
  induction ms with
  | nil => rfl
  | cons y ys ih =>
    simp only [List.map_cons, sortInsert, hless y x, List.orderedInsert]
    by_cases h : y < x
    · rw [decide_eq_true h, if_neg (not_le.mpr h)]
      simp [ih]
    · rw [decide_eq_false h, if_pos (le_of_not_lt h)]
      simp

/-- Transfer lemma: the sort model on an embedded list agrees with
`List.insertionSort` on the underlying elements — in particular, it
never hits the comparator's panic case. -/
theorem sortSlice_map {β : Type} [LinearOrder β] (emb : β → Value)
    (hless : ∀ x y : β, sortLess (emb x) (emb y) = some (decide (x < y)))
    (ns : List β) :
    sortSliceModel (ns.map emb) = some ((List.insertionSort (· ≤ ·) ns).map emb) := by
  induction ns with
  | nil => rfl
  | cons x xs ih =>
    simp only [List.map_cons, sortSliceModel, ih]
    exact sortInsert_map emb hless x _

/-- The comparator-induced order on embedded values is the element
order. -/
theorem vle_map {β : Type} [LinearOrder β] (emb : β → Value)
    (hless : ∀ x y : β, sortLess (emb x) (emb y) = some (decide (x < y)))
    (x y : β) : vle (emb x) (emb y) ↔ x ≤ y := by
  unfold vle
  rw [hless y x]
  simp [not_lt]

/-- Sortedness under the comparator order on an embedded list is
sortedness of the underlying elements. -/
theorem sorted_map_vle {β : Type} [LinearOrder β] (emb : β → Value)
    (hless : ∀ x y : β, sortLess (emb x) (emb y) = some (decide (x < y)))
    (ms : List β) :
    List.Sorted vle (ms.map emb) ↔ List.Sorted (· ≤ ·) ms := by
  unfold List.Sorted
  rw [List.pairwise_map]
  exact List.Pairwise.iff (fun a b => vle_map emb hless a b)

/-- A list all of whose members are embedded elements is an embedded
list. -/
theorem map_shape {β : Type} (emb : β → Value) :
    ∀ l : List Value, (∀ x ∈ l, ∃ y, x = emb y) → ∃ ms : List β, l = ms.map emb := by
  intro l
  induction l with
  | nil => exact fun _ => ⟨[], rfl⟩
  | cons x xs ih =>
    intro h
    obtain ⟨y, hy⟩ := h x (by simp)
    obtain ⟨ms, hms⟩ := ih (fun z hz => h z (by simp [hz]))
    exact ⟨y :: ms, by simp [hy, hms]⟩

/-- A permutation of embedded lists comes from a permutation of the
underlying element lists. -/
theorem perm_map_cancel {β : Type} (emb : β → Value) (proj : Value → Option β)
    (hproj : ∀ x, proj (emb x) = some x) (ms ns : List β)
    (h : (ms.map emb).Perm (ns.map emb)) : ms.Perm ns := by
  have h2 := h.filterMap proj
  rw [List.filterMap_map, List.filterMap_map] at h2
  have he : (proj ∘ emb) = some := funext hproj
  rw [he] at h2
  simpa using h2

/-- Core of the sort claim, generic over the element type: sorting a
shared array cell holding an embedded homogeneous list allocates a NEW
cell holding the ordered permutation of its contents — touching nothing
else, in particular leaving the argument cell intact — and that ordered
arrangement is unique among sorted permutations, so equal elements
(being identical values) trivially keep their relative order and the
result does not depend on which comparison sort `sort.Slice` uses. -/
theorem sortAux {β : Type} [LinearOrder β] (emb : β → Value) (proj : Value → Option β)
    (hless : ∀ x y : β, sortLess (emb x) (emb y) = some (decide (x < y)))
    (hproj : ∀ x, proj (emb x) = some x)
    (s : State) (addr : Nat) (ns : List β)
    (h1 : s.arrays.get? addr = some (ns.map emb)) :
    ∃ l', nativeSort [.varr addr] s
        = .ok (.varr s.arrays.length) { s with arrays := s.arrays ++ [l'] }
      ∧ l'.Perm (ns.map emb)
      ∧ List.Sorted vle l'
      ∧ (∀ l2, l2.Perm (ns.map emb) → List.Sorted vle l2 → l2 = l')
      ∧ (s.arrays ++ [l']).get? addr = some (ns.map emb) := by
  refine ⟨(List.insertionSort (· ≤ ·) ns).map emb, ?_, ?_, ?_, ?_, ?_⟩
  · have e : nativeSort [Value.varr addr]
        = (readArray addr >>= fun arr =>
            match sortSliceModel arr with
            | none => mGoPanic "runtime error: invalid memory address or nil pointer dereference"
            | some dest => allocArray dest) := rfl
    have hr : readArray addr s = .ok (ns.map emb) s := by
      unfold readArray
      rw [h1]
    rw [e, run_bind_ok _ _ _ _ _ hr, sortSlice_map emb hless ns]
    rfl
  · exact (List.perm_insertionSort _ ns).map emb
  · exact (sorted_map_vle emb hless _).mpr (List.sorted_insertionSort _ ns)
  · intro l2 hp hs2
    have hmem : ∀ x ∈ l2, ∃ y, x = emb y := by
      intro x hx
      have hx2 : x ∈ ns.map emb := hp.mem_iff.mp hx
      obtain ⟨y, _, hy⟩ := List.mem_map.mp hx2
      exact ⟨y, hy.symm⟩
    obtain ⟨ms, rfl⟩ := map_shape emb l2 hmem
    have hperm : ms.Perm ns := perm_map_cancel emb proj hproj ms ns hp
    have hsms : List.Sorted (· ≤ ·) ms := (sorted_map_vle emb hless ms).mp hs2
    have heq : ms = List.insertionSort (· ≤ ·) ns :=
      List.eq_of_perm_of_sorted (hperm.trans (List.perm_insertionSort _ ns).symm) hsms
        (List.sorted_insertionSort _ ns)
    rw [heq]
  · have hlt : addr < s.arrays.length := by
      rcases List.get?_eq_some.mp h1 with ⟨h, _⟩
      exact h
    rw [List.get?_append hlt]
    exact h1

/-- C8: `sort` on an array of numbers, or of strings, returns a NEW
array (a fresh cell appended to the heap) containing the same elements
arranged ascending under the source's comparator (numeric for numbers,
lexicographic for strings), and the argument array's cell is left
exactly as it was.  The uniqueness conjunct settles stability: equal
elements of such an array are identical values, every sorted permutation
of the contents is THE one arrangement `l'`, so elements that compare
equal keep their original relative order no matter which comparison sort
`sort.Slice` happens to be. -/
theorem c8_sort_returns_new_sorted_array (s : State) (addr : Nat) (l : List Value)
    (h1 : s.arrays.get? addr = some l)
    (h2 : (∃ ns : List Int, l = ns.map Value.vnum) ∨ (∃ ts : List String, l = ts.map Value.vstr)) :
    ∃ l', nativeSort [.varr addr] s
        = .ok (.varr s.arrays.length) { s with arrays := s.arrays ++ [l'] }
      ∧ l'.Perm l
      ∧ List.Sorted vle l'
      ∧ (∀ l2, l2.Perm l → List.Sorted vle l2 → l2 = l')
      ∧ (s.arrays ++ [l']).get? addr = some l := by
  rcases h2 with ⟨ns, rfl⟩ | ⟨ts, rfl⟩
  · exact sortAux Value.vnum
      (fun v => match v with | .vnum n => some n | _ => none)
      (fun x y => rfl) (fun x => rfl) s addr ns h1
  · exact sortAux Value.vstr
      (fun v => match v with | .vstr t => some t | _ => none)
      (fun x y =>
        (rfl : sortLess (Value.vstr x) (Value.vstr y) = some (decide (x < y))).trans
          (congrArg some (decide_eq_decide.mpr Iff.rfl)))
      (fun x => rfl) s addr ts h1

/-- C8 witness: sorting the concrete array `[3, 1, 2]`. -/
theorem c8_witness :
    ∃ l', nativeSort [Value.varr 0] { initState with arrays := [[.vnum 3, .vnum 1, .vnum 2]] }
        = .ok (.varr 1)
            { initState with arrays := [[Value.vnum 3, .vnum 1, .vnum 2]] ++ [l'] }
      ∧ l'.Perm [Value.vnum 3, .vnum 1, .vnum 2]
      ∧ List.Sorted vle l'
      ∧ (∀ l2, l2.Perm [Value.vnum 3, .vnum 1, .vnum 2] → List.Sorted vle l2 → l2 = l')
      ∧ ([[Value.vnum 3, .vnum 1, .vnum 2]] ++ [l']).get? 0
          = some [Value.vnum 3, .vnum 1, .vnum 2] :=
  c8_sort_returns_new_sorted_array { initState with arrays := [[.vnum 3, .vnum 1, .vnum 2]] } 0
    [Value.vnum 3, .vnum 1, .vnum 2] rfl (Or.inl ⟨[3, 1, 2], rfl⟩)

end AocLang
